import Mathlib

set_option autoImplicit false

/-!
# Verification of the environment-composition and lookback-reward core

Shallow embedding of the wrapper chain of `adversarial-policies`:

* `src/modelfree/lookback.py` — `LookbackRewardVecWrapper`, the lookback reward
  augmenter maintaining a rotating pool of shadow environment pipelines;
* `src/modelfree/common/utils.py` — `_filter_dict` and `TrajectoryRecorder`;
* `src/modelfree/train.py` — `EmbedVictimWrapper`.

Modelling conventions:

* NumPy arrays of floats are modelled as `List ℚ` (`Vec`) or per-lane functions
  `Fin n → _`; float arithmetic is modelled exactly over `ℚ`.
* The wrapped vectorized environments, the MuJoCo simulator and the TensorFlow
  policies are external collaborators.  Their *responses* (step results, state
  snapshots, observation slices) are oracle inputs to the wrapper functions, and
  a policy is a record of pure functions satisfying the `predict` contract of
  `modelfree/common/utils.py` (`PolicyToModel.predict`): `state=None` means the
  policy's initial recurrent state, `mask=None` means no lane is resetting, and
  a `True` mask entry resets that lane's recurrent state to the initial state
  before the step.
* Fallible Python code (raised exceptions) is modelled with `Except String`.
-/

/-- A numeric vector (a NumPy float array). -/
abbrev Vec : Type := List ℚ

/-- Pointwise difference of two equally-shaped vectors (NumPy `a - b`). -/
def vsub (a b : Vec) : Vec := List.zipWith (· - ·) a b

/-- The transparent victim entries of one info dict, as read by
`LookbackRewardVecWrapper.step_wait`:
`ffPolicy0 i` models `info['ff']['policy'][0][i]` (the transparent feed-forward
activations, a batch-wide array indexed by lane) and `obsArr i` models
`info['obs'][i]`. -/
structure VictimInfo (n : ℕ) where
  ffPolicy0 : Fin n → Vec
  obsArr : Fin n → Vec
  deriving DecidableEq

/-- The default `VictimInfo`.  Reading a victim info that was never populated
would raise `KeyError` in Python; in `step_wait` every read is preceded by
`_process_lb_data`, which populates every entry, so this default is inert
there. -/
def VictimInfo.empty (n : ℕ) : VictimInfo n :=
  { ffPolicy0 := fun _ => [], obsArr := fun _ => [] }

/-- One `step_wait` result of a (live or shadow) vectorized environment:
`(observations, rewards, dones, infos)`.  `infos i a` is the info dict of
agent `a` in lane `i`. -/
structure StepResult (n : ℕ) where
  obs : Fin n → Vec
  rewards : Fin n → ℚ
  dones : Fin n → Bool
  infos : Fin n → Fin 2 → VictimInfo n
  deriving DecidableEq

/-- A (possibly recurrent) policy, per the `predict` contract used by
`lookback.py` (see `PolicyToModel.predict` in `modelfree/common/utils.py`).
`obDim` is `policy.observation_space.shape[0]`, used by `_get_truncated_obs`.
A stateless policy (`stateful = false`) returns `None` as its new state. -/
structure LPolicy (n : ℕ) where
  obDim : ℕ
  stateful : Bool
  initState : Vec
  act : Vec → Vec → Vec
  nextState : Vec → Vec → Vec

/-- `policy.predict(observation, state=st, mask=mask)`: per-lane, a `None`
state means the initial recurrent state, and a true mask entry resets that
lane's recurrent state to the initial state before stepping. -/
def LPolicy.predict {n : ℕ} (p : LPolicy n) (obs : Fin n → Vec)
    (st : Option (Fin n → Vec)) (mask : Option (Fin n → Bool)) :
    (Fin n → Vec) × Option (Fin n → Vec) :=
  let m : Fin n → Bool := mask.getD (fun _ => false)
  let s : Fin n → Vec := fun i =>
    match st with
    | none => p.initState
    | some f => if m i then p.initState else f i
  (fun i => p.act (obs i) (s i),
   if p.stateful then some (fun i => p.nextState (obs i) (s i)) else none)

/-- The cached per-slot data dict of one lookback slot
(`lb_dict.data` in `lookback.py`):
`{'state': ..., 'action': ..., 'reward': ..., 'info': defaultdict(dict)}`.
`state` and `action` are `None` until the first reset; `info i a` is `none`
while the defaultdict entry is still missing. -/
structure LbData (n : ℕ) where
  state : Option (Fin n → Vec)
  action : Option (Fin n → Vec)
  reward : Fin n → ℚ
  info : Fin n → Fin 2 → Option (VictimInfo n)

/-- One lookback slot (`LookbackTuple` in `lookback.py`): a full shadow
pipeline (simulator + curried victim + flattening) plus its cached data.
`tag` is a ghost identity label (not present in the source, never read by the
dynamics) used only to state that the per-step rotation permutes slots without
adding, dropping or duplicating any.  `curryObs` is the observation context
stored in the slot's `CurryVecEnv` (`curry.set_obs`), `simState`/`simFull`/
`radius` are the per-lane simulator snapshot set via
`env_method('set_state', ..., sim_data=..., ...)` and `set_radius`. -/
structure LbSlot (n : ℕ) where
  tag : ℕ
  curryObs : Fin n → Vec
  simState : Fin n → Vec
  simFull : Fin n → Vec
  radius : Fin n → ℚ
  data : LbData n

/-- The state of the freshly constructed external shadow pipeline built for one
slot in `_create_lb_dicts` (dummy/subproc vec env + embedded victim +
flattening): its initial curry-observation context and simulator snapshot. -/
structure ShadowEnvInit (n : ℕ) where
  curryObs : Fin n → Vec
  simState : Fin n → Vec
  simFull : Fin n → Vec
  radius : Fin n → ℚ

namespace LookbackRewardVecWrapper

/-- One iteration of the `_create_lb_dicts` loop (lookback.py lines 89-107).
After the external pipeline pieces (`make_vec_env`, `DebugVenv`,
`load_policy`; oracle `fresh`) return, the iteration executes the in-src call
`EmbedVictimWrapper(multi_env=..., victim=..., victim_index=...,
transparent_params=self.transparent_params)` (lookback.py lines 99-101) —
but `EmbedVictimWrapper.__init__` (train.py line 35) has signature
`(self, multi_env, victim, victim_index)` and does not accept the keyword
`transparent_params`, so every iteration raises `TypeError` before the
iteration's `LookbackTuple` (data dict `{'state': None, 'action': None,
'reward': np.zeros(num_envs), 'info': defaultdict(dict)}`, line 104) is ever
built.  (`env_fn`, lines 85-87, likewise passes `resettable=True` to
`make_env`, utils.py line 330, which has no such parameter; whether that
`TypeError` fires first depends on when the external vec-env constructor
invokes the env thunks, so the modeled message is the one from the in-src
constructor call, whose failure does not depend on external timing.) -/
def create_lb_slot (n : ℕ) (j : ℕ) (fresh : ℕ → ShadowEnvInit n) :
    Except String (LbSlot n) :=
  .error
    "TypeError: __init__() got an unexpected keyword argument 'transparent_params'"

/-- `LookbackRewardVecWrapper._create_lb_dicts` (lookback.py lines 82-107):
runs `for _ in range(self.lookback_num)` accumulating `lb_dicts`.  With
`lookback_num = 0` the loop body never runs and the empty pool is returned;
with `lookback_num ≥ 1` the first iteration raises (see `create_lb_slot`)
and no pool is ever built. -/
def create_lb_dicts (n : ℕ) (lookbackNum : ℕ) (fresh : ℕ → ShadowEnvInit n) :
    Except String (List (LbSlot n)) :=
  (List.range lookbackNum).mapM fun j => create_lb_slot n j fresh

end LookbackRewardVecWrapper

/-- The state of a `LookbackRewardVecWrapper` (`lookback.py`, `__init__`):
`lookbackNum = lookback_params['num_lb']`, the baseline policy `self._policy`
(loaded externally), the caches `self._action`, `self._obs`, `self._state`,
`self._new_lb_state` (all `None` at construction), `self._dones`
(`[False] * num_envs`), `self.ep_lens` (`np.zeros(num_envs)`), and the slot
pool `self.lb_dicts`.  As the source stands, `init` below only returns a
state when `lookback_num = 0` (for `lookback_num ≥ 1` construction raises
inside `_create_lb_dicts`, see `create_lb_slot`); the step methods further
below are modeled as functions of an arbitrary state of this type. -/
structure LookbackRewardVecWrapper (n : ℕ) where
  lookbackNum : ℕ
  transparentParams : List String
  victimIndex : Fin 2
  policy : LPolicy n
  action : Option (Fin n → Vec)
  obs : Option (Fin n → Vec)
  state : Option (Fin n → Vec)
  newLbState : Option (Fin n → Vec)
  dones : Fin n → Bool
  epLens : Fin n → ℕ
  lbDicts : List (LbSlot n)

namespace LookbackRewardVecWrapper

/-- `LookbackRewardVecWrapper.__init__`: raises
`ValueError("LookbackRewardVecWrapper assumes transparent policies and venvs.")`
when `transparent_params is None` (lookback.py lines 63-64, before any pool or
policy construction); otherwise records the parameters, sets the caches to
`None`/zeros and builds the slot pool via `_create_lb_dicts` — whose
`TypeError` (see `create_lb_slot`) propagates out of `__init__` whenever
`lookback_num ≥ 1`.  The externally loaded baseline policy (`load_policy`)
and the external shadow pipelines are the parameters `policy` and `fresh`. -/
def init (n : ℕ) (lookbackNum : ℕ) (transparentParams : Option (List String))
    (victimIndex : Fin 2) (policy : LPolicy n) (fresh : ℕ → ShadowEnvInit n) :
    Except String (LookbackRewardVecWrapper n) :=
  match transparentParams with
  | none =>
      .error "LookbackRewardVecWrapper assumes transparent policies and venvs."
  | some tp =>
      (create_lb_dicts n lookbackNum fresh).map fun lbDicts =>
        { lookbackNum := lookbackNum
          transparentParams := tp
          victimIndex := victimIndex
          policy := policy
          action := none
          obs := none
          state := none
          newLbState := none
          dones := fun _ => false
          epLens := fun _ => 0
          lbDicts := lbDicts }

/-- `self._get_truncated_obs(obs)`: `obs[:, :observation_space.shape[0]]`. -/
def get_truncated_obs {n : ℕ} (p : LPolicy n) (obs : Fin n → Vec) :
    Fin n → Vec :=
  fun i => (obs i).take p.obDim

/-- `self._process_own_obs(observations)`: records `self._obs` (truncated) and
updates `self._action, self._state` by `self._policy.predict(..., state=
self._state, mask=self._dones)`. -/
def process_own_obs {n : ℕ} (w : LookbackRewardVecWrapper n)
    (observations : Fin n → Vec) : LookbackRewardVecWrapper n :=
  let tobs := get_truncated_obs w.policy observations
  let r := w.policy.predict tobs w.state (some w.dones)
  { w with obs := some tobs, action := some r.1, state := r.2 }

/-- One iteration of the loop in `self._process_lb_data`: for slot `idx` with
shadow step result `(lb_obs, lb_reward, _, lb_info)`, recompute the baseline
policy's action/state from the truncated shadow observation (with
`state=data['state']`, `mask=self._dones`) and cache
`action`/`state`/`reward`; `data['info'][env_idx].update(lb_info[env_idx])`
overwrites every agent entry since the shadow step returns an info dict for
every agent. -/
def update_slot_from_res {n : ℕ} (p : LPolicy n) (dones : Fin n → Bool)
    (slot : LbSlot n) (r : StepResult n) : LbSlot n :=
  let lbObs := get_truncated_obs p r.obs
  let pr := p.predict lbObs slot.data.state (some dones)
  { slot with
      data := { state := pr.2, action := some pr.1, reward := r.rewards,
                info := fun i a => some (r.infos i a) } }

/-- `self._process_lb_data(lb_data)`: updates slot `idx` from the `idx`-th
shadow step result.  `lb_data` is built as one `step_wait` result per slot, so
the two lists always have equal length; extra slots are left untouched so the
function is total. -/
def process_lb_data {n : ℕ} (p : LPolicy n) (dones : Fin n → Bool) :
    List (LbSlot n) → List (StepResult n) → List (LbSlot n)
  | [], _ => []
  | ss, [] => ss
  | s :: ss, r :: rs =>
      update_slot_from_res p dones s r :: process_lb_data p dones ss rs

end LookbackRewardVecWrapper

/-- The live pipeline values read back by the wrapper through
`self.get_curry_venv().get_obs()` and
`self.venv.unwrapped.env_method('get_state' / 'get_full_state' /
'get_radius')`.  The live pipeline is an external collaborator, so these reads
are oracle inputs. -/
structure LiveReadout (n : ℕ) where
  curryObs : Fin n → Vec
  states : Fin n → Vec
  fullStates : Fin n → Vec
  radii : Fin n → ℚ

namespace LookbackRewardVecWrapper

/-- The per-slot effect of `self._reset_state_data(initial_observations,
env_idx)` given the fresh baseline prediction `(freshA, freshS)` computed
from `predict(truncated_obs, state=None, mask=None)`.

* `envIdx = none` (called from `reset()`): the slot's venv is reset and then
  overwritten with the live snapshot; the whole data dict is replaced
  (`action`, `state`, `reward *= 0`, `info = defaultdict(dict)`).
* `envIdx = some i` (an episode ended in lane `i`): only lane `i` of
  `action`/`state`/`reward` and of the simulator snapshot and curry
  observation context are overwritten.  NOTE: the per-lane branch of the
  source (lookback.py lines 208-215) does not touch `data['info']`. -/
def reset_slot_data {n : ℕ} (ro : LiveReadout n) (freshA : Fin n → Vec)
    (freshS : Option (Fin n → Vec)) (envIdx : Option (Fin n))
    (slot : LbSlot n) : LbSlot n :=
  match envIdx with
  | none =>
      { slot with
          curryObs := ro.curryObs
          simState := ro.states
          simFull := ro.fullStates
          radius := ro.radii
          data := { state := freshS, action := some freshA,
                    reward := fun _ => 0, info := fun _ _ => none } }
  | some i =>
      { slot with
          curryObs := Function.update slot.curryObs i (ro.curryObs i)
          simState := Function.update slot.simState i (ro.states i)
          simFull := Function.update slot.simFull i (ro.fullStates i)
          radius := Function.update slot.radius i (ro.radii i)
          data := { state :=
                      match freshS with
                      | none => none
                      | some s =>
                          slot.data.state.map fun f => Function.update f i (s i)
                    action :=
                      slot.data.action.map fun f => Function.update f i (freshA i)
                    reward := Function.update slot.data.reward i 0
                    info := slot.data.info } }

/-- `self._reset_state_data(initial_observations, env_idx)`: computes the
fresh baseline prediction from the truncated initial observations with
`state=None, mask=None`, then resets every slot via `reset_slot_data`.
No field of `self` other than `lb_dicts` is modified. -/
def reset_state_data {n : ℕ} (w : LookbackRewardVecWrapper n)
    (initialObs : Fin n → Vec) (ro : LiveReadout n) (envIdx : Option (Fin n)) :
    LookbackRewardVecWrapper n :=
  let tobs := get_truncated_obs w.policy initialObs
  let pr := w.policy.predict tobs none none
  { w with lbDicts := w.lbDicts.map (reset_slot_data ro pr.1 pr.2 envIdx) }

/-- `self.step_async(actions)`:

1. snapshot the live simulator states and the live curry observation (`ro`);
2. rotate the pool: `self.lb_dicts = [self.lb_dicts[-1]] + self.lb_dicts[:-1]`;
3. overwrite the new slot 0 ("new baseline") with the live curry observation
   and live simulator states (`set_state(..., forward=False)`, state only);
4. step every other slot with its cached action (external effect on the
   shadow pipelines, no wrapper-state change);
5. compute the baseline policy's action from `self._obs` with
   `state=self._new_lb_state, mask=self._dones`, cache the new state both in
   `self._new_lb_state` and in slot 0's data dict, and step slot 0 with it;
6. step the live env with the caller's `actions` (external);
7. `self.ep_lens += 1`.

The caller-supplied `actions` are forwarded verbatim to the live env and do
not affect the wrapper state. -/
def step_async {n : ℕ} (w : LookbackRewardVecWrapper n) (_actions : Fin n → Vec)
    (ro : LiveReadout n) : LookbackRewardVecWrapper n :=
  let rotated :=
    match w.lbDicts.getLast? with
    | none => w.lbDicts
    | some last => last :: w.lbDicts.dropLast
  let pr := w.policy.predict (w.obs.getD fun _ => []) w.newLbState (some w.dones)
  let lbDicts' :=
    match rotated with
    | [] => []
    | b :: rest =>
        { b with
            curryObs := ro.curryObs
            simState := ro.states
            data := { b.data with state := pr.2 } } :: rest
  { w with lbDicts := lbDicts', newLbState := pr.2,
           epLens := fun i => w.epLens i + 1 }

/-- The lookback reward bonus of lane `i`
(`env_diff_reward` in `step_wait`): a fold over the valid slots
`self.lb_dicts[:self.ep_lens[env_idx]]`, adding
`np.linalg.norm(victim_info['ff']['policy'][0][env_idx] -
lb_victim_info['ff']['policy'][0][env_idx])` when `'ff' in
self.transparent_params`.  The `'obs' in self.transparent_params` branch
computes `diff_obs` and discards it.  The vector norm is the external
`np.linalg.norm`, passed as the oracle `norm`. -/
def lane_bonus {n : ℕ} (w : LookbackRewardVecWrapper n) (live : StepResult n)
    (norm : Vec → ℚ) (i : Fin n) : ℚ :=
  (w.lbDicts.take (w.epLens i)).foldl
    (fun acc slot =>
      if "ff" ∈ w.transparentParams then
        acc + norm (vsub ((live.infos i w.victimIndex).ffPolicy0 i)
          (((slot.data.info i w.victimIndex).getD (VictimInfo.empty n)).ffPolicy0 i))
      else acc)
    0

/-- One iteration of the per-lane loop of `step_wait` (lines 145-162): if lane
`i` just finished its episode, realign that lane's slot state with the freshly
reset live env (`_reset_state_data(observations, env_idx)`); then add
`0.05 * env_diff_reward` to the lane's live reward. -/
def lane_step {n : ℕ} (live : StepResult n) (ro : LiveReadout n)
    (norm : Vec → ℚ) (acc : LookbackRewardVecWrapper n × (Fin n → ℚ))
    (i : Fin n) : LookbackRewardVecWrapper n × (Fin n → ℚ) :=
  let w' := if live.dones i then reset_state_data acc.1 live.obs ro (some i)
            else acc.1
  let bonus := lane_bonus w' live norm i
  (w', Function.update acc.2 i (acc.2 i + (0.05 : ℚ) * bonus))

/-- `self.step_wait()`:

1. collect the live result and set `self._dones` to its dones;
2. `self._process_own_obs(observations)`;
3. collect every shadow slot's result (`lbRes`, one per slot) and
   `self._process_lb_data(lb_data)`;
4. `self.ep_lens *= ~dones` (zero the counter of every finished lane);
5. per-lane loop: realign finished lanes and add the scaled lookback bonus;
6. return `(observations, rewards, self._dones, infos)`. -/
def step_wait {n : ℕ} (w : LookbackRewardVecWrapper n) (live : StepResult n)
    (lbRes : List (StepResult n)) (ro : LiveReadout n) (norm : Vec → ℚ) :
    LookbackRewardVecWrapper n × StepResult n :=
  let w0 := { w with dones := live.dones }
  let w1 := process_own_obs w0 live.obs
  let w2 := { w1 with lbDicts := process_lb_data w1.policy w1.dones w1.lbDicts lbRes }
  let w3 := { w2 with epLens := fun i => if live.dones i then 0 else w2.epLens i }
  let r := (List.finRange n).foldl (lane_step live ro norm) (w3, live.rewards)
  (r.1, { live with rewards := r.2 })

/-- `self.reset()`: resets the live env (its fresh observations are the oracle
input `initialObs`), records them via `_process_own_obs`, and realigns every
slot across all lanes via `_reset_state_data(observations)`. -/
def reset {n : ℕ} (w : LookbackRewardVecWrapper n) (initialObs : Fin n → Vec)
    (ro : LiveReadout n) : LookbackRewardVecWrapper n × (Fin n → Vec) :=
  let w1 := process_own_obs w initialObs
  let w2 := reset_state_data w1 initialObs ro none
  (w2, initialObs)

end LookbackRewardVecWrapper

/-!
## `modelfree/common/utils.py`: `_filter_dict` and `TrajectoryRecorder`

Python dicts are modelled as association lists with distinct keys in insertion
order; `defaultdict(list)` access-and-append is `dictAppend`, access with the
empty-list default is `dictGet`.
-/

/-- `defaultdict(list)`-style append: `d[k].append(v)`.  If `k` is absent it is
inserted at the end (Python dicts preserve insertion order). -/
def dictAppend {α : Type} (d : List (String × List α)) (k : String) (v : α) :
    List (String × List α) :=
  match d with
  | [] => [(k, [v])]
  | (k', vs) :: rest =>
      if k' = k then (k', vs ++ [v]) :: rest else (k', vs) :: dictAppend rest k v

/-- `defaultdict(list)` read: `d[k]`, defaulting to the empty list. -/
def dictGet {α : Type} (d : List (String × List α)) (k : String) : List α :=
  match d with
  | [] => []
  | (k', vs) :: rest => if k' = k then vs else dictGet rest k

/-- `_filter_dict(d, keys)` (utils.py lines 175-193).  With `keys=None` the
dict is returned verbatim.  Otherwise the source executes
`present_keys = keys.intersect(d.keys())` — but a Python `set` has no method
`intersect` (the method is `intersection`), so this line raises
`AttributeError` before any filtering or warning can happen; the documented
warn-and-continue path (lines 190-193) is unreachable. -/
def _filter_dict {α : Type} (d : List (String × α)) (keys : Option (List String)) :
    Except String (List (String × α)) :=
  match keys with
  | none => .ok d
  | some _ => .error "AttributeError: 'set' object has no attribute 'intersect'"

/-- What the docstring of `_filter_dict` says it does (and what
`keys.intersection(d.keys())` would compute): keep the requested keys that are
present, warn about the missing ones, never fail.  Used only to state the
divergence of `_filter_dict` from its own documentation. -/
def filter_dict_documented {α : Type} (d : List (String × α))
    (keys : Option (List String)) : List (String × α) × List String :=
  match keys with
  | none => (d, [])
  | some ks =>
      (d.filter fun kv => kv.1 ∈ ks,
       ks.filter fun k => d.all fun kv => kv.1 != k)

/-- `step_wait` result of the multi-agent vectorized env wrapped by
`TrajectoryRecorder`: per-agent per-lane observation/reward arrays, per-lane
dones, and per-lane per-agent info dicts.  Array entries are opaque scalars. -/
structure MultiStepResult (A n : ℕ) where
  obs : Fin A → Fin n → ℚ
  rewards : Fin A → Fin n → ℚ
  dones : Fin n → Bool
  infos : Fin n → Fin A → List (String × ℚ)
  deriving DecidableEq

/-- The state of a `TrajectoryRecorder` (utils.py lines 196-298).
`trajDicts d` is `self.traj_dicts[d]` (one per-episode accumulator dict per
lane, for the `d`-th recorded agent), `fullTrajDicts d` is
`self.full_traj_dicts[d]` (the consolidated per-agent store mapping each field
to the list of per-episode arrays).  `prevObs`/`actions` are `None` until the
first `reset`/`step_async`. -/
structure TrajectoryRecorder (A n : ℕ) where
  agentIndices : List (Fin A)
  envKeys : Option (List String)
  infoKeys : Option (List String)
  trajDicts : List (Fin n → List (String × List ℚ))
  fullTrajDicts : List (List (String × List (List ℚ)))
  prevObs : Option (Fin A → Fin n → ℚ)
  actions : Option (Fin A → Fin n → ℚ)

namespace TrajectoryRecorder

/-- `TrajectoryRecorder.__init__` with the agent indices already resolved
(`None` ↦ `range(num_agents)`, an int ↦ a singleton): empty accumulators, one
row per recorded agent, `prev_obs = actions = None`. -/
def construct (A n : ℕ) (agentIndices : List (Fin A)) (envKeys infoKeys : Option (List String)) :
    TrajectoryRecorder A n :=
  { agentIndices := agentIndices
    envKeys := envKeys
    infoKeys := infoKeys
    trajDicts := agentIndices.map fun _ _ => []
    fullTrajDicts := agentIndices.map fun _ => []
    prevObs := none
    actions := none }

/-- The body of the `record_timestep_data` loop for one `(dict_idx, env_idx)`
pair (utils.py lines 261-281), acting on that lane's accumulator `cell` and
the agent's consolidated store `full`:

* append each requested env field value `val[agent_idx][env_idx]`;
* append each entry of the (already filtered) info dict;
* if the lane is done: record `sum(agent_dicts[env_idx]['rewards'])` as an
  episode return, consolidate each accumulated field into one episode array
  appended to the store, and reset the accumulator to empty. -/
def record_cell {A n : ℕ} (envData : List (String × (Fin A → Fin n → ℚ)))
    (agentIdx : Fin A) (infoDict : List (String × ℚ)) (done : Bool) (i : Fin n)
    (cell : List (String × List ℚ)) (full : List (String × List (List ℚ))) :
    List (String × List ℚ) × List (String × List (List ℚ)) :=
  let cell1 := envData.foldl (fun c kv => dictAppend c kv.1 (kv.2 agentIdx i)) cell
  let cell2 := infoDict.foldl (fun c kv => dictAppend c kv.1 kv.2) cell1
  if done then
    let epRet := (dictGet cell2 "rewards").sum
    let full1 := dictAppend full "episode_returns" [epRet]
    let full2 := cell2.foldl (fun f kv => dictAppend f kv.1 kv.2) full1
    ([], full2)
  else (cell2, full)

/-- The `env_data` dict of `record_timestep_data` (utils.py lines 252-256),
before filtering. -/
def env_data {A n : ℕ} (prevObs actions rewards : Fin A → Fin n → ℚ) :
    List (String × (Fin A → Fin n → ℚ)) :=
  [("observations", prevObs), ("actions", actions), ("rewards", rewards)]

/-- The loop body of `record_timestep_data` for one `(dict_idx, env_idx)`
iteration: filter the lane's info dict by `info_keys`, run `record_cell`, and
store the results in `traj_dicts[dict_idx][env_idx]` and
`full_traj_dicts[dict_idx]`. -/
def record_row_body {A n : ℕ} (envData : List (String × (Fin A → Fin n → ℚ)))
    (a : Fin A) (dones : Fin n → Bool)
    (infos : Fin n → Fin A → List (String × ℚ)) (infoKeys : Option (List String))
    (acc : (Fin n → List (String × List ℚ)) × List (String × List (List ℚ)))
    (i : Fin n) :
    Except String
      ((Fin n → List (String × List ℚ)) × List (String × List (List ℚ))) := do
  let infoDict ← _filter_dict (infos i a) infoKeys
  let r := record_cell envData a infoDict (dones i) i (acc.1 i) acc.2
  pure (Function.update acc.1 i r.1, r.2)

/-- `self.record_timestep_data(prev_obs, actions, rewards, dones, infos)`
(utils.py lines 240-281).  `env_data` is filtered once by `env_keys`; the info
dict of each `(lane, agent)` pair is filtered by `info_keys` inside the loop.
`itertools.product(enumerate(self.traj_dicts), range(self.num_envs))` iterates
agent-major, and each iteration touches only `traj_dicts[dict_idx][env_idx]`
and `full_traj_dicts[dict_idx]`, so the loop is one fold over lanes per
recorded agent. -/
def record_timestep_data {A n : ℕ} (st : TrajectoryRecorder A n)
    (prevObs actions rewards : Fin A → Fin n → ℚ) (dones : Fin n → Bool)
    (infos : Fin n → Fin A → List (String × ℚ)) :
    Except String (TrajectoryRecorder A n) := do
  let envData ← _filter_dict (env_data prevObs actions rewards) st.envKeys
  let rows ← (st.agentIndices.zip (st.trajDicts.zip st.fullTrajDicts)).mapM
    (fun p => (List.finRange n).foldlM
      (record_row_body envData p.1 dones infos st.infoKeys) p.2)
  pure { st with trajDicts := rows.map (·.1), fullTrajDicts := rows.map (·.2) }

/-- `self.step_async(actions)`: caches the actions and forwards them verbatim
to the wrapped env (the second component is what the wrapped env receives). -/
def step_async {A n : ℕ} (st : TrajectoryRecorder A n)
    (actions : Fin A → Fin n → ℚ) :
    TrajectoryRecorder A n × (Fin A → Fin n → ℚ) :=
  ({ st with actions := some actions }, actions)

/-- `self.step_wait()`: collects the wrapped env's result `res`, records the
timestep, caches `prev_obs := observations`, and returns `res` unchanged.
Stepping before any `reset`/`step_async` would pass `None` into
`record_timestep_data` and raise `TypeError` in the source. -/
def step_wait {A n : ℕ} (st : TrajectoryRecorder A n) (res : MultiStepResult A n) :
    Except String (TrajectoryRecorder A n × MultiStepResult A n) :=
  match st.prevObs, st.actions with
  | some po, some ac =>
      (record_timestep_data st po ac res.rewards res.dones res.infos).map
        fun st' => ({ st' with prevObs := some res.obs }, res)
  | _, _ => .error "TypeError: 'NoneType' object is not subscriptable"

/-- `self.reset()`: resets the wrapped env (its observations are the oracle
input), caches them as `prev_obs`, and returns them unchanged. -/
def reset {A n : ℕ} (st : TrajectoryRecorder A n) (obs : Fin A → Fin n → ℚ) :
    TrajectoryRecorder A n × (Fin A → Fin n → ℚ) :=
  ({ st with prevObs := some obs }, obs)

end TrajectoryRecorder

/-!
## `modelfree/train.py`: `EmbedVictimWrapper`
-/

/-- A TensorFlow session owned by the embedded victim policy. -/
structure TfSession where
  closed : Bool

/-- The embedded victim policy (a `DummyModel` holding a session). -/
structure VictimModel where
  sess : TfSession

/-- The wrapped environment pipeline under the `EmbedVictimWrapper` (the
`CurryVecEnv`-curried multi-agent env); `VecEnvWrapper.close()` closes it. -/
structure VenvPipeline where
  closed : Bool

/-- `EmbedVictimWrapper` (train.py lines 34-49): holds the victim and the
curried env. -/
structure EmbedVictimWrapper where
  victim : VictimModel
  venv : VenvPipeline

namespace EmbedVictimWrapper

/-- `EmbedVictimWrapper.close()`: `self.victim.sess.close()` then
`super().close()`, which closes the wrapped environment pipeline. -/
def close (w : EmbedVictimWrapper) : EmbedVictimWrapper :=
  { w with victim := { w.victim with sess := { w.victim.sess with closed := true } }
           venv := { w.venv with closed := true } }

end EmbedVictimWrapper

/-!
## The shadow-pool invariant (claim C1)

One `step_async`/`step_wait` cycle of the augmenter, with all external
responses bundled as one input record.
-/

/-- The external inputs consumed by one `step_async`/`step_wait` cycle:
the caller's actions, the live readouts at async and wait time, the live and
shadow step results, and the norm used for the reward bonus. -/
structure CycleInput (n : ℕ) where
  actions : Fin n → Vec
  roAsync : LiveReadout n
  live : StepResult n
  lbRes : List (StepResult n)
  roWait : LiveReadout n
  norm : Vec → ℚ

namespace LookbackRewardVecWrapper

/-- One full `step_async`; `step_wait` cycle of the augmenter. -/
def cycle {n : ℕ} (w : LookbackRewardVecWrapper n) (inp : CycleInput n) :
    LookbackRewardVecWrapper n :=
  (step_wait (step_async w inp.actions inp.roAsync) inp.live inp.lbRes
    inp.roWait inp.norm).1

theorem reset_slot_data_tag {n : ℕ} (ro : LiveReadout n) (a : Fin n → Vec)
    (s : Option (Fin n → Vec)) (e : Option (Fin n)) (slot : LbSlot n) :
    (reset_slot_data ro a s e slot).tag = slot.tag := by
  cases e <;> rfl

theorem create_lb_dicts_fails (n K : ℕ) (hK : 1 ≤ K)
    (fresh : ℕ → ShadowEnvInit n) :
    create_lb_dicts n K fresh = .error
      "TypeError: __init__() got an unexpected keyword argument 'transparent_params'" := by
  obtain ⟨K', rfl⟩ : ∃ K', K = K' + 1 := ⟨K - 1, by omega⟩
  unfold create_lb_dicts
  rw [List.range_succ_eq_map]
  rfl

theorem process_lb_data_tags {n : ℕ} (p : LPolicy n) (d : Fin n → Bool) :
    ∀ (ss : List (LbSlot n)) (rs : List (StepResult n)),
      (process_lb_data p d ss rs).map (·.tag) = ss.map (·.tag) := by
  intro ss
  induction ss with
  | nil => intro rs; cases rs <;> rfl
  | cons s ss ih =>
    intro rs
    cases rs with
    | nil => rfl
    | cons r rs => simp only [process_lb_data, List.map_cons, ih]; rfl

theorem reset_state_data_tags {n : ℕ} (w : LookbackRewardVecWrapper n)
    (obs : Fin n → Vec) (ro : LiveReadout n) (e : Option (Fin n)) :
    (reset_state_data w obs ro e).lbDicts.map (·.tag) = w.lbDicts.map (·.tag) := by
  unfold reset_state_data
  rw [List.map_map]
  exact List.map_congr_left fun slot _ => reset_slot_data_tag _ _ _ _ slot

/-- Generic preservation along the per-lane loop of `step_wait`: any
projection of the wrapper state unchanged by a per-lane `_reset_state_data` is
unchanged by the whole loop. -/
theorem foldl_lane_step_pres {n : ℕ} {α : Type} (live : StepResult n)
    (ro : LiveReadout n) (norm : Vec → ℚ) (f : LookbackRewardVecWrapper n → α)
    (hf : ∀ (w : LookbackRewardVecWrapper n) (i : Fin n),
      f (reset_state_data w live.obs ro (some i)) = f w) :
    ∀ (l : List (Fin n)) (acc : LookbackRewardVecWrapper n × (Fin n → ℚ)),
      f ((l.foldl (lane_step live ro norm) acc).1) = f acc.1 := by
  intro l
  induction l with
  | nil => intro acc; rfl
  | cons j l ih =>
    intro acc
    rw [List.foldl_cons, ih]
    show f (if live.dones j then reset_state_data acc.1 live.obs ro (some j)
            else acc.1) = f acc.1
    cases live.dones j with
    | true => simpa using hf acc.1 j
    | false => rfl

theorem step_wait_tags {n : ℕ} (w : LookbackRewardVecWrapper n)
    (live : StepResult n) (lbRes : List (StepResult n)) (ro : LiveReadout n)
    (norm : Vec → ℚ) :
    (step_wait w live lbRes ro norm).1.lbDicts.map (·.tag) =
      w.lbDicts.map (·.tag) := by
  unfold step_wait
  rw [foldl_lane_step_pres live ro norm (fun w => w.lbDicts.map (·.tag))
    (fun w i => reset_state_data_tags w live.obs ro (some i))]
  exact process_lb_data_tags _ _ _ _

theorem step_async_tags_perm {n : ℕ} (w : LookbackRewardVecWrapper n)
    (a : Fin n → Vec) (ro : LiveReadout n) :
    ((step_async w a ro).lbDicts.map (·.tag)).Perm (w.lbDicts.map (·.tag)) := by
  rcases List.eq_nil_or_concat w.lbDicts with h | ⟨L, b, h⟩
  · simp [step_async, h]
  · rw [List.concat_eq_append] at h
    simp only [step_async, h, List.getLast?_concat, List.dropLast_concat,
      List.map_append, List.map_cons]
    exact (List.perm_append_singleton b.tag (L.map (·.tag))).symm

theorem cycle_tags_perm {n : ℕ} (w : LookbackRewardVecWrapper n)
    (inp : CycleInput n) :
    ((cycle w inp).lbDicts.map (·.tag)).Perm (w.lbDicts.map (·.tag)) := by
  rw [cycle, step_wait_tags]
  exact step_async_tags_perm w inp.actions inp.roAsync

theorem foldl_cycle_tags_perm {n : ℕ} (steps : List (CycleInput n)) :
    ∀ (w : LookbackRewardVecWrapper n),
      ((steps.foldl cycle w).lbDicts.map (·.tag)).Perm (w.lbDicts.map (·.tag)) := by
  induction steps with
  | nil => intro w; rfl
  | cons inp steps ih =>
    intro w
    exact (ih (cycle w inp)).trans (cycle_tags_perm w inp)

/-- Folding an `if c then acc + f x else acc` accumulation is the base value
plus the sum of the guarded terms. -/
theorem foldl_if_add_eq_sum {α : Type} (c : Prop) [Decidable c] (f : α → ℚ) :
    ∀ (l : List α) (a : ℚ),
      l.foldl (fun acc x => if c then acc + f x else acc) a =
        a + (l.map fun x => if c then f x else 0).sum := by
  intro l
  induction l with
  | nil => intro a; simp
  | cons x l ih =>
    intro a
    rw [List.foldl_cons, ih, List.map_cons, List.sum_cons]
    by_cases hc : c <;> simp [hc] <;> ring

/-- The lookback bonus as a sum over the cached victim infos of the valid
slots. -/
def bonus_sum {n : ℕ} (tp : List String) (vi : Fin 2) (live : StepResult n)
    (norm : Vec → ℚ) (i : Fin n)
    (infos : List (Fin n → Fin 2 → Option (VictimInfo n))) : ℚ :=
  (infos.map fun info =>
    if "ff" ∈ tp then
      norm (vsub ((live.infos i vi).ffPolicy0 i)
        (((info i vi).getD (VictimInfo.empty n)).ffPolicy0 i))
    else 0).sum

theorem lane_bonus_eq {n : ℕ} (w : LookbackRewardVecWrapper n)
    (live : StepResult n) (norm : Vec → ℚ) (i : Fin n) :
    lane_bonus w live norm i =
      bonus_sum w.transparentParams w.victimIndex live norm i
        ((w.lbDicts.map (·.data.info)).take (w.epLens i)) := by
  unfold lane_bonus bonus_sum
  rw [foldl_if_add_eq_sum, zero_add, ← List.map_take, List.map_map]
  rfl

theorem lane_bonus_reset {n : ℕ} (w : LookbackRewardVecWrapper n)
    (o : Fin n → Vec) (ro : LiveReadout n) (j : Fin n) (live : StepResult n)
    (norm : Vec → ℚ) (i : Fin n) :
    lane_bonus (reset_state_data w o ro (some j)) live norm i =
      lane_bonus w live norm i := by
  unfold lane_bonus reset_state_data
  dsimp only
  rw [← List.map_take, List.foldl_map]
  rfl

/-- The per-lane loop of `step_wait` writes each lane's reward exactly once:
lane `i`'s final reward is its incoming reward plus `0.05` times its lookback
bonus, computed from the loop-invariant state projections. -/
theorem foldl_lane_step_rewards {n : ℕ} (live : StepResult n)
    (ro : LiveReadout n) (norm : Vec → ℚ) (w3 : LookbackRewardVecWrapper n) :
    ∀ (l : List (Fin n)), l.Nodup →
      ∀ (acc : LookbackRewardVecWrapper n × (Fin n → ℚ)),
        (∀ k, lane_bonus acc.1 live norm k = lane_bonus w3 live norm k) →
        ∀ i, ((l.foldl (lane_step live ro norm) acc).2) i =
          if i ∈ l then acc.2 i + (0.05 : ℚ) * lane_bonus w3 live norm i
          else acc.2 i := by
  intro l
  induction l with
  | nil => intro _ acc _ i; simp
  | cons j l ih =>
    intro hnd acc hinv i
    have hinv' : ∀ k, lane_bonus (lane_step live ro norm acc j).1 live norm k =
        lane_bonus w3 live norm k := by
      intro k
      show lane_bonus (if live.dones j then
          reset_state_data acc.1 live.obs ro (some j) else acc.1) live norm k = _
      cases hb : live.dones j with
      | true => rw [if_pos rfl, lane_bonus_reset]; exact hinv k
      | false => rw [if_neg (by simp)]; exact hinv k
    rw [List.foldl_cons, ih (List.nodup_cons.mp hnd).2 _ hinv' i]
    have hsnd : (lane_step live ro norm acc j).2 =
        Function.update acc.2 j (acc.2 j +
          (0.05 : ℚ) * lane_bonus (lane_step live ro norm acc j).1 live norm j) :=
      rfl
    by_cases hij : i = j
    · subst hij
      rw [if_neg (by exact fun hmem => (List.nodup_cons.mp hnd).1 hmem),
        if_pos (List.mem_cons_self i l), hsnd, Function.update_same, hinv' i]
    · rw [hsnd, Function.update_noteq hij]
      simp [List.mem_cons, hij]

theorem step_wait_rewards_eq {n : ℕ} (w : LookbackRewardVecWrapper n)
    (live : StepResult n) (lbRes : List (StepResult n)) (ro : LiveReadout n)
    (norm : Vec → ℚ) (i : Fin n) :
    (step_wait w live lbRes ro norm).2.rewards i =
      live.rewards i + (0.05 : ℚ) *
        bonus_sum w.transparentParams w.victimIndex live norm i
          (((process_lb_data w.policy live.dones w.lbDicts lbRes).map
            (·.data.info)).take (if live.dones i then 0 else w.epLens i)) := by
  unfold step_wait
  dsimp only
  rw [foldl_lane_step_rewards live ro norm _ (List.finRange n)
    (List.nodup_finRange n) _ (fun _ => rfl) i, if_pos (List.mem_finRange i),
    lane_bonus_eq]
  rfl

theorem process_lb_data_info_take {n : ℕ} (p : LPolicy n) (d : Fin n → Bool) :
    ∀ (ss : List (LbSlot n)) (rs : List (StepResult n)), rs.length = ss.length →
      ∀ L, ((process_lb_data p d ss rs).map (·.data.info)).take L =
        (rs.take L).map fun r => fun i a => some (r.infos i a) := by
  intro ss
  induction ss with
  | nil =>
    intro rs h L
    rw [List.length_nil] at h
    rw [List.eq_nil_of_length_eq_zero h]
    simp [process_lb_data]
  | cons s ss ih =>
    intro rs h L
    cases rs with
    | nil => simp at h
    | cons r rs =>
      cases L with
      | zero => simp
      | succ L =>
        simp only [process_lb_data, List.map_cons, List.take_succ_cons,
          List.cons.injEq]
        exact ⟨rfl, ih rs (by simpa using h) L⟩

/-- The reward of every lane after `step_wait`: live reward plus `0.05` times
the sum of the guarded per-slot norm terms over the valid shadow results. -/
theorem step_wait_rewards_if {n : ℕ} (w : LookbackRewardVecWrapper n)
    (live : StepResult n) (lbRes : List (StepResult n)) (ro : LiveReadout n)
    (norm : Vec → ℚ) (i : Fin n) (hlen : lbRes.length = w.lbDicts.length) :
    (step_wait w live lbRes ro norm).2.rewards i =
      live.rewards i + (0.05 : ℚ) *
        ((lbRes.take (if live.dones i then 0 else w.epLens i)).map fun r =>
          if "ff" ∈ w.transparentParams then
            norm (vsub ((live.infos i w.victimIndex).ffPolicy0 i)
              ((r.infos i w.victimIndex).ffPolicy0 i))
          else 0).sum := by
  rw [step_wait_rewards_eq, process_lb_data_info_take _ _ _ _ hlen]
  unfold bonus_sum
  rw [List.map_map]
  rfl

theorem step_async_length {n : ℕ} (w : LookbackRewardVecWrapper n)
    (a : Fin n → Vec) (ro : LiveReadout n) :
    (step_async w a ro).lbDicts.length = w.lbDicts.length := by
  have h := (step_async_tags_perm w a ro).length_eq
  simpa using h

theorem step_wait_epLens {n : ℕ} (w : LookbackRewardVecWrapper n)
    (live : StepResult n) (lbRes : List (StepResult n)) (ro : LiveReadout n)
    (norm : Vec → ℚ) (i : Fin n) :
    (step_wait w live lbRes ro norm).1.epLens i =
      if live.dones i then 0 else w.epLens i := by
  unfold step_wait
  dsimp only
  rw [foldl_lane_step_pres live ro norm (fun w => w.epLens) (fun _ _ => rfl)]
  rfl

end LookbackRewardVecWrapper

/-- Both per-slot caches written by `_process_lb_data` are populated: the
cached action is present and the cached recurrent state is present exactly for
a stateful baseline policy. -/
def slot_caches_set {n : ℕ} (stateful : Bool) (slot : LbSlot n) : Prop :=
  slot.data.action.isSome = true ∧ slot.data.state.isSome = stateful

/-- Lane `i` of a slot has been realigned with the freshly reset live
environment: simulator snapshot and curry observation context from the live
readout, cached reward zero, and cached action/recurrent state recomputed by
the baseline policy from the truncated fresh observations with a cleared
(initial) recurrent state.  None of the right-hand sides mentions the slot's
pre-reset caches, so the realigned values are independent of them. -/
def slot_reset_at {n : ℕ} (p : LPolicy n) (live : StepResult n)
    (ro : LiveReadout n) (i : Fin n) (slot : LbSlot n) : Prop :=
  slot.curryObs i = ro.curryObs i ∧
  slot.simState i = ro.states i ∧
  slot.simFull i = ro.fullStates i ∧
  slot.radius i = ro.radii i ∧
  slot.data.reward i = 0 ∧
  slot.data.action.map (fun f => f i) =
    some (p.act ((live.obs i).take p.obDim) p.initState) ∧
  slot.data.state.map (fun f => f i) =
    (if p.stateful then
      some (p.nextState ((live.obs i).take p.obDim) p.initState)
    else none)

namespace LookbackRewardVecWrapper

theorem update_slot_caches {n : ℕ} (p : LPolicy n) (d : Fin n → Bool)
    (slot : LbSlot n) (r : StepResult n) :
    slot_caches_set p.stateful (update_slot_from_res p d slot r) := by
  constructor
  · rfl
  · show (if p.stateful then _ else none).isSome = p.stateful
    cases p.stateful <;> rfl

theorem process_lb_data_caches {n : ℕ} (p : LPolicy n) (d : Fin n → Bool) :
    ∀ (ss : List (LbSlot n)) (rs : List (StepResult n)), rs.length = ss.length →
      ∀ slot ∈ process_lb_data p d ss rs, slot_caches_set p.stateful slot := by
  intro ss
  induction ss with
  | nil => intro rs _ slot hmem; simp [process_lb_data] at hmem
  | cons s ss ih =>
    intro rs h slot hmem
    cases rs with
    | nil => simp at h
    | cons r rs =>
      rcases List.mem_cons.mp hmem with hs | hs
      · rw [hs]; exact update_slot_caches p d s r
      · exact ih rs (by simpa using h) slot hs

theorem lane_step_policy {n : ℕ} (live : StepResult n) (ro : LiveReadout n)
    (norm : Vec → ℚ) (acc : LookbackRewardVecWrapper n × (Fin n → ℚ))
    (j : Fin n) : (lane_step live ro norm acc j).1.policy = acc.1.policy := by
  show (if live.dones j then reset_state_data acc.1 live.obs ro (some j)
        else acc.1).policy = acc.1.policy
  cases live.dones j <;> rfl

/-- A per-lane `_reset_state_data` keeps both caches populated, because fresh
action/state come from a `predict` of the same policy. -/
theorem reset_slot_data_caches {n : ℕ} (p : LPolicy n) (ro : LiveReadout n)
    (prA : Fin n → Vec) (prS : Option (Fin n → Vec)) (j : Fin n)
    (hS : prS.isSome = p.stateful) (slot : LbSlot n)
    (h : slot_caches_set p.stateful slot) :
    slot_caches_set p.stateful (reset_slot_data ro prA prS (some j) slot) := by
  obtain ⟨ha, hs⟩ := h
  constructor
  · show (slot.data.action.map _).isSome = true
    rw [Option.isSome_map']
    exact ha
  · cases prS with
    | none => exact hS
    | some s =>
      show (Option.map (fun f => Function.update f j (s j))
        slot.data.state).isSome = p.stateful
      rw [Option.isSome_map']
      exact hs

theorem lane_step_caches {n : ℕ} (p : LPolicy n) (live : StepResult n)
    (ro : LiveReadout n) (norm : Vec → ℚ)
    (acc : LookbackRewardVecWrapper n × (Fin n → ℚ)) (j : Fin n)
    (hp : acc.1.policy = p)
    (hQ : ∀ slot ∈ acc.1.lbDicts, slot_caches_set p.stateful slot) :
    ∀ slot ∈ (lane_step live ro norm acc j).1.lbDicts,
      slot_caches_set p.stateful slot := by
  intro slot hmem
  rw [show (lane_step live ro norm acc j).1 =
      (if live.dones j then reset_state_data acc.1 live.obs ro (some j)
       else acc.1) from rfl] at hmem
  cases hb : live.dones j with
  | false => rw [hb, if_neg (by simp)] at hmem; exact hQ slot hmem
  | true =>
    rw [hb, if_pos rfl] at hmem
    unfold reset_state_data at hmem
    obtain ⟨slot0, hs0, rfl⟩ := List.mem_map.mp hmem
    refine reset_slot_data_caches p ro _ _ j ?_ slot0 (hQ slot0 hs0)
    show ((acc.1.policy.predict _ none none).2).isSome = p.stateful
    rw [hp]
    show (if p.stateful then _ else none).isSome = p.stateful
    cases p.stateful <;> rfl

/-- A per-lane `_reset_state_data` at lane `i` realigns lane `i` of every slot
whose caches are populated. -/
theorem reset_slot_data_resets_at {n : ℕ} (p : LPolicy n) (live : StepResult n)
    (ro : LiveReadout n) (i : Fin n) (slot : LbSlot n)
    (ha : slot.data.action.isSome = true)
    (hst : slot.data.state.isSome = p.stateful) :
    slot_reset_at p live ro i
      (reset_slot_data ro (p.predict (get_truncated_obs p live.obs) none none).1
        (p.predict (get_truncated_obs p live.obs) none none).2 (some i) slot) := by
  obtain ⟨f, hf⟩ := Option.isSome_iff_exists.mp ha
  unfold reset_slot_data slot_reset_at
  dsimp only
  refine ⟨Function.update_same _ _ _, Function.update_same _ _ _,
    Function.update_same _ _ _, Function.update_same _ _ _,
    Function.update_same _ _ _, ?_, ?_⟩
  · rw [hf, Option.map_some', Option.map_some', Function.update_same]
    rfl
  · cases hsf : p.stateful with
    | false =>
      have h2 : (p.predict (get_truncated_obs p live.obs) none none).2 = none := by
        simp [LPolicy.predict, hsf]
      rw [h2]
      rfl
    | true =>
      have h2 : (p.predict (get_truncated_obs p live.obs) none none).2 =
          some (fun j => p.nextState ((live.obs j).take p.obDim) p.initState) := by
        simp only [LPolicy.predict, hsf, if_true]
        rfl
      rw [hsf] at hst
      obtain ⟨g, hg⟩ := Option.isSome_iff_exists.mp hst
      rw [h2, hg]
      simp only [Option.map_some', Function.update_same, if_true]

theorem reset_state_data_establishes {n : ℕ} (w' : LookbackRewardVecWrapper n)
    (live : StepResult n) (ro : LiveReadout n) (i : Fin n)
    (hQ : ∀ slot ∈ w'.lbDicts, slot_caches_set w'.policy.stateful slot) :
    ∀ slot ∈ (reset_state_data w' live.obs ro (some i)).lbDicts,
      slot_reset_at w'.policy live ro i slot := by
  intro slot' hmem
  unfold reset_state_data at hmem
  obtain ⟨slot, hs, rfl⟩ := List.mem_map.mp hmem
  exact reset_slot_data_resets_at w'.policy live ro i slot (hQ slot hs).1
    (hQ slot hs).2

/-- A per-lane `_reset_state_data` at a different lane `j ≠ i` leaves the
lane-`i` realignment facts intact. -/
theorem reset_slot_data_resets_at_preserved {n : ℕ} (p : LPolicy n)
    (live : StepResult n) (ro : LiveReadout n) (i j : Fin n) (hij : j ≠ i)
    (prA : Fin n → Vec) (slot : LbSlot n)
    (h : slot_reset_at p live ro i slot) :
    slot_reset_at p live ro i
      (reset_slot_data ro prA (p.predict (get_truncated_obs p live.obs) none none).2
        (some j) slot) := by
  obtain ⟨h1, h2, h3, h4, h5, h6, h7⟩ := h
  have hine : i ≠ j := fun hh => hij hh.symm
  unfold reset_slot_data slot_reset_at
  dsimp only
  refine ⟨?_, ?_, ?_, ?_, ?_, ?_, ?_⟩
  · rw [Function.update_noteq hine]; exact h1
  · rw [Function.update_noteq hine]; exact h2
  · rw [Function.update_noteq hine]; exact h3
  · rw [Function.update_noteq hine]; exact h4
  · rw [Function.update_noteq hine]; exact h5
  · cases hact : slot.data.action with
    | none => rw [hact] at h6; cases h6
    | some f =>
      rw [hact] at h6
      rw [Option.map_some', Option.map_some', Function.update_noteq hine]
      rw [Option.map_some'] at h6
      exact h6
  · cases hsf : p.stateful with
    | false =>
      have hS : (p.predict (get_truncated_obs p live.obs) none none).2 = none := by
        simp [LPolicy.predict, hsf]
      rw [hS]
      rfl
    | true =>
      have hS : (p.predict (get_truncated_obs p live.obs) none none).2 =
          some (fun k => p.nextState ((live.obs k).take p.obDim) p.initState) := by
        simp only [LPolicy.predict, hsf, if_true]
        rfl
      rw [hsf, if_pos rfl] at h7
      cases hstate : slot.data.state with
      | none => rw [hstate] at h7; cases h7
      | some g =>
        rw [hstate, Option.map_some'] at h7
        rw [hS]
        dsimp only
        rw [Option.map_some', Option.map_some', Function.update_noteq hine]
        simp only [if_true]
        exact h7

theorem lane_step_resets_at_preserved {n : ℕ} (p : LPolicy n)
    (live : StepResult n) (ro : LiveReadout n) (norm : Vec → ℚ)
    (acc : LookbackRewardVecWrapper n × (Fin n → ℚ)) (i j : Fin n)
    (hij : j ≠ i) (hp : acc.1.policy = p)
    (h : ∀ slot ∈ acc.1.lbDicts, slot_reset_at p live ro i slot) :
    ∀ slot ∈ (lane_step live ro norm acc j).1.lbDicts,
      slot_reset_at p live ro i slot := by
  intro slot hmem
  rw [show (lane_step live ro norm acc j).1 =
      (if live.dones j then reset_state_data acc.1 live.obs ro (some j)
       else acc.1) from rfl] at hmem
  cases hb : live.dones j with
  | false => rw [hb, if_neg (by simp)] at hmem; exact h slot hmem
  | true =>
    rw [hb, if_pos rfl] at hmem
    unfold reset_state_data at hmem
    obtain ⟨slot0, hs0, rfl⟩ := List.mem_map.mp hmem
    rw [hp]
    exact reset_slot_data_resets_at_preserved p live ro i j hij _ slot0
      (h slot0 hs0)

theorem foldl_lane_step_resets_at_pres {n : ℕ} (p : LPolicy n)
    (live : StepResult n) (ro : LiveReadout n) (norm : Vec → ℚ) (i : Fin n) :
    ∀ (l : List (Fin n)), (∀ j ∈ l, j ≠ i) →
      ∀ (acc : LookbackRewardVecWrapper n × (Fin n → ℚ)), acc.1.policy = p →
        (∀ slot ∈ acc.1.lbDicts, slot_reset_at p live ro i slot) →
        ∀ slot ∈ ((l.foldl (lane_step live ro norm) acc).1).lbDicts,
          slot_reset_at p live ro i slot := by
  intro l
  induction l with
  | nil => intro _ acc _ h; exact h
  | cons j l ih =>
    intro hno acc hp h
    rw [List.foldl_cons]
    refine ih (fun k hk => hno k (List.mem_cons_of_mem j hk)) _ ?_ ?_
    · rw [lane_step_policy]; exact hp
    · exact lane_step_resets_at_preserved p live ro norm acc i j
        (hno j (List.mem_cons_self j l)) hp h

theorem foldl_lane_step_establishes {n : ℕ} (p : LPolicy n)
    (live : StepResult n) (ro : LiveReadout n) (norm : Vec → ℚ) (i : Fin n)
    (hd : live.dones i = true) :
    ∀ (l : List (Fin n)), l.Nodup → i ∈ l →
      ∀ (acc : LookbackRewardVecWrapper n × (Fin n → ℚ)), acc.1.policy = p →
        (∀ slot ∈ acc.1.lbDicts, slot_caches_set p.stateful slot) →
        ∀ slot ∈ ((l.foldl (lane_step live ro norm) acc).1).lbDicts,
          slot_reset_at p live ro i slot := by
  intro l
  induction l with
  | nil => intro _ hmem; cases hmem
  | cons j l ih =>
    intro hnd hmem acc hp hQ
    rw [List.foldl_cons]
    by_cases hji : j = i
    · subst hji
      have hstep : (lane_step live ro norm acc j).1 =
          reset_state_data acc.1 live.obs ro (some j) := by
        show (if live.dones j then _ else _) = _
        rw [hd, if_pos rfl]
      refine foldl_lane_step_resets_at_pres p live ro norm j l
        (fun k hk hkj => (List.nodup_cons.mp hnd).1 (hkj ▸ hk)) _ ?_ ?_
      · rw [lane_step_policy]; exact hp
      · rw [hstep]
        intro slot hs
        have := reset_state_data_establishes acc.1 live ro j
          (by rw [hp]; exact hQ) slot hs
        rw [hp] at this
        exact this
    · have hmem' : i ∈ l := by
        rcases List.mem_cons.mp hmem with hh | hh
        · exact absurd hh.symm hji
        · exact hh
      refine ih (List.nodup_cons.mp hnd).2 hmem' _ ?_ ?_
      · rw [lane_step_policy]; exact hp
      · exact lane_step_caches p live ro norm acc j hp hQ

theorem step_wait_state {n : ℕ} (w : LookbackRewardVecWrapper n)
    (live : StepResult n) (lbRes : List (StepResult n)) (ro : LiveReadout n)
    (norm : Vec → ℚ) :
    (step_wait w live lbRes ro norm).1.state =
      (w.policy.predict (get_truncated_obs w.policy live.obs) w.state
        (some live.dones)).2 := by
  unfold step_wait
  dsimp only
  rw [foldl_lane_step_pres live ro norm (fun w => w.state) (fun _ _ => rfl)]
  rfl

end LookbackRewardVecWrapper

/-- C1 (amended): with `K = lookback_num ≥ 1`, construction never builds a
shadow pool at all — every iteration of `_create_lb_dicts` raises `TypeError`
(the in-src call `EmbedVictimWrapper(..., transparent_params=...)` does not
match `EmbedVictimWrapper.__init__`'s signature, and `env_fn` likewise passes
`resettable=True` to `make_env`), and `__init__` propagates the exception, so
neither `K+1` nor any other number of shadow slots exists at construction;
the failing loop ranges over `range(K)`, i.e. `K` iterations, not `K+1`.
Independently, on any wrapper state the per-step `step_async`/`step_wait`
rotation permutes the slot pool: it neither adds, drops, nor duplicates a
slot, so after any number of cycles the pool is a permutation of the starting
pool with unchanged size, slot offsets being the positions `0..size-1`. -/
theorem C1_pool_construction_amended (n K : ℕ) (hK : 1 ≤ K) (tp : List String)
    (vi : Fin 2) (policy : LPolicy n) (fresh : ℕ → ShadowEnvInit n) :
    LookbackRewardVecWrapper.init n K (some tp) vi policy fresh =
      .error
        "TypeError: __init__() got an unexpected keyword argument 'transparent_params'" ∧
    ∀ (w : LookbackRewardVecWrapper n) (steps : List (CycleInput n)),
      ((steps.foldl LookbackRewardVecWrapper.cycle w).lbDicts.map (·.tag)).Perm
        (w.lbDicts.map (·.tag)) ∧
      (steps.foldl LookbackRewardVecWrapper.cycle w).lbDicts.length =
        w.lbDicts.length := by
  constructor
  · have h := LookbackRewardVecWrapper.create_lb_dicts_fails n K hK fresh
    unfold LookbackRewardVecWrapper.init
    rw [h]
    rfl
  · intro w steps
    refine ⟨LookbackRewardVecWrapper.foldl_cycle_tags_perm steps w, ?_⟩
    have h := (LookbackRewardVecWrapper.foldl_cycle_tags_perm steps w).length_eq
    simpa using h

/-- A trivial stateless policy over one lane, for concrete instantiations. -/
def lbPolicyW : LPolicy 1 :=
  { obDim := 0, stateful := false, initState := [],
    act := fun _ _ => [], nextState := fun _ _ => [] }

/-- A trivial shadow-pipeline construction oracle over one lane. -/
def lbFreshW : ℕ → ShadowEnvInit 1 := fun _ =>
  { curryObs := fun _ => [], simState := fun _ => [],
    simFull := fun _ => [], radius := fun _ => 0 }

/-- C1 counterexample: with `lookback_num = 1`, construction does not yield a
pool of `K + 1 = 2` slots — it does not yield a pool at all: `init` returns
the propagated `TypeError` of `_create_lb_dicts` (and even the failing loop
ranges over `range(1)`, one iteration, not two). -/
theorem C1_pool_size_counterexample :
    ¬ ((LookbackRewardVecWrapper.init 1 1 (some ["ff"]) 0 lbPolicyW
        lbFreshW).map fun w => w.lbDicts.length) = Except.ok 2 := by
  intro h
  exact Except.noConfusion h

/-- A concrete one-lane shadow slot with empty caches. -/
def lbSlotW : LbSlot 1 :=
  { tag := 0
    curryObs := fun _ => []
    simState := fun _ => []
    simFull := fun _ => []
    radius := fun _ => 0
    data := { state := none, action := none, reward := fun _ => 0,
              info := fun _ _ => none } }

/-- A concrete one-lane, one-slot wrapper state with `ff` transparent params,
used to instantiate the step theorems. -/
def lbW0 : LookbackRewardVecWrapper 1 :=
  { lookbackNum := 1
    transparentParams := ["ff"]
    victimIndex := 0
    policy := lbPolicyW
    action := none
    obs := none
    state := none
    newLbState := none
    dones := fun _ => false
    epLens := fun _ => 0
    lbDicts := [lbSlotW] }

/-- A concrete live/shadow step result over one lane. -/
def lbLiveW : StepResult 1 :=
  { obs := fun _ => [], rewards := fun _ => 0, dones := fun _ => false,
    infos := fun _ _ => VictimInfo.empty 1 }

/-- A concrete live readout over one lane. -/
def lbRoW : LiveReadout 1 :=
  { curryObs := fun _ => [], states := fun _ => [],
    fullStates := fun _ => [], radii := fun _ => 0 }

/-- A concrete cycle input over one lane. -/
def lbCycleInputW : CycleInput 1 :=
  { actions := fun _ => [], roAsync := lbRoW, live := lbLiveW,
    lbRes := [lbLiveW], roWait := lbRoW, norm := fun _ => 0 }

/-- Witness for the amended C1: at `K = 1` construction fails with the
propagated `TypeError`, and one concrete cycle on a concrete one-slot state
permutes the pool without changing its size. -/
theorem C1_witness :
    1 ≤ 1 ∧
    LookbackRewardVecWrapper.init 1 1 (some ["ff"]) 0 lbPolicyW lbFreshW =
      .error
        "TypeError: __init__() got an unexpected keyword argument 'transparent_params'" ∧
    (([lbCycleInputW].foldl LookbackRewardVecWrapper.cycle lbW0).lbDicts.map
      (·.tag)).Perm (lbW0.lbDicts.map (·.tag)) ∧
    ([lbCycleInputW].foldl LookbackRewardVecWrapper.cycle lbW0).lbDicts.length =
      lbW0.lbDicts.length :=
  ⟨by decide,
   (C1_pool_construction_amended 1 1 (by decide) ["ff"] 0 lbPolicyW lbFreshW).1,
   ((C1_pool_construction_amended 1 1 (by decide) ["ff"] 0 lbPolicyW
      lbFreshW).2 lbW0 [lbCycleInputW]).1,
   ((C1_pool_construction_amended 1 1 (by decide) ["ff"] 0 lbPolicyW
      lbFreshW).2 lbW0 [lbCycleInputW]).2⟩

/-!
## Reward-shape claims (C2, C3, C10)
-/

/-- C2: for every lane, the reward returned by `step_wait` equals the live
reward plus the fixed coefficient `0.05` times the sum, over the lane's valid
shadow slots, of the vector norm of the difference between the live victim's
transparent feed-forward signal and that slot's victim's corresponding signal.
The equation holds for every norm function, so no clipping or truncation of
large divergences takes place. -/
theorem C2_reward_is_live_plus_scaled_ff_distance_sum {n : ℕ}
    (w : LookbackRewardVecWrapper n) (live : StepResult n)
    (lbRes : List (StepResult n)) (ro : LiveReadout n) (norm : Vec → ℚ)
    (i : Fin n) (hff : "ff" ∈ w.transparentParams)
    (hlen : lbRes.length = w.lbDicts.length) :
    (LookbackRewardVecWrapper.step_wait w live lbRes ro norm).2.rewards i =
      live.rewards i + (0.05 : ℚ) *
        ((lbRes.take (if live.dones i then 0 else w.epLens i)).map fun r =>
          norm (vsub ((live.infos i w.victimIndex).ffPolicy0 i)
            ((r.infos i w.victimIndex).ffPolicy0 i))).sum := by
  rw [LookbackRewardVecWrapper.step_wait_rewards_if w live lbRes ro norm i hlen]
  simp only [if_pos hff]

/-- C3: the per-lane episode-length counter increments by exactly one per
`step_async` and is reset to 0 on that lane's done flag; the lookback bonus of
a lane whose episode length is `L` at reward-computation time draws only on
the first `L` shadow slots (offsets strictly below `L`); a freshly reset lane
(`L = 0`) receives exactly the live reward. -/
theorem C3_episode_length_gating {n : ℕ} (w : LookbackRewardVecWrapper n)
    (a : Fin n → Vec) (roA : LiveReadout n) (live : StepResult n)
    (lbRes : List (StepResult n)) (roW : LiveReadout n) (norm : Vec → ℚ)
    (i : Fin n) (hlen : lbRes.length = w.lbDicts.length) :
    ((LookbackRewardVecWrapper.step_wait (LookbackRewardVecWrapper.step_async
        w a roA) live lbRes roW norm).1.epLens i =
      if live.dones i then 0 else w.epLens i + 1) ∧
    ((LookbackRewardVecWrapper.step_wait (LookbackRewardVecWrapper.step_async
        w a roA) live lbRes roW norm).2.rewards i =
      live.rewards i + (0.05 : ℚ) *
        ((lbRes.take (if live.dones i then 0 else w.epLens i + 1)).map fun r =>
          if "ff" ∈ w.transparentParams then
            norm (vsub ((live.infos i w.victimIndex).ffPolicy0 i)
              ((r.infos i w.victimIndex).ffPolicy0 i))
          else 0).sum) ∧
    (live.dones i = true →
      (LookbackRewardVecWrapper.step_wait (LookbackRewardVecWrapper.step_async
        w a roA) live lbRes roW norm).2.rewards i = live.rewards i) := by
  have hlen' : lbRes.length =
      (LookbackRewardVecWrapper.step_async w a roA).lbDicts.length := by
    rw [LookbackRewardVecWrapper.step_async_length]; exact hlen
  have hrew := LookbackRewardVecWrapper.step_wait_rewards_if
    (LookbackRewardVecWrapper.step_async w a roA) live lbRes roW norm i hlen'
  refine ⟨?_, ?_, ?_⟩
  · rw [LookbackRewardVecWrapper.step_wait_epLens]; rfl
  · exact hrew
  · intro hd
    rw [hrew]
    simp [hd]

/-- C10: when `transparent_params` contains `'obs'` but not `'ff'`, the
observation difference computed in `step_wait` is discarded and the reward
returned for every lane is the live environment's reward unchanged — only the
`'ff'` signal ever contributes to the lookback bonus. -/
theorem C10_only_ff_contributes {n : ℕ} (w : LookbackRewardVecWrapper n)
    (live : StepResult n) (lbRes : List (StepResult n)) (ro : LiveReadout n)
    (norm : Vec → ℚ) (i : Fin n) (hobs : "obs" ∈ w.transparentParams)
    (hff : "ff" ∉ w.transparentParams) :
    (LookbackRewardVecWrapper.step_wait w live lbRes ro norm).2.rewards i =
      live.rewards i := by
  rw [LookbackRewardVecWrapper.step_wait_rewards_eq]
  have hz : LookbackRewardVecWrapper.bonus_sum w.transparentParams
      w.victimIndex live norm i
      (((LookbackRewardVecWrapper.process_lb_data w.policy live.dones
        w.lbDicts lbRes).map (·.data.info)).take
        (if live.dones i then 0 else w.epLens i)) = 0 := by
    unfold LookbackRewardVecWrapper.bonus_sum
    refine List.sum_eq_zero ?_
    intro x hx
    obtain ⟨info, _, rfl⟩ := List.mem_map.mp hx
    exact if_neg hff
  rw [hz]
  ring

/-- A one-slot, one-lane wrapper state with `'ff'` transparent params and
episode length 1, for the reward-shape witnesses. -/
def lbW2 : LookbackRewardVecWrapper 1 :=
  { lbW0 with epLens := fun _ => 1 }

/-- A live step result whose victim feed-forward signal is `[3]`. -/
def lbLive2 : StepResult 1 :=
  { obs := fun _ => [], rewards := fun _ => 2, dones := fun _ => false,
    infos := fun _ _ => { ffPolicy0 := fun _ => [3], obsArr := fun _ => [] } }

/-- A shadow step result whose victim feed-forward signal is `[1]`. -/
def lbShadow2 : StepResult 1 :=
  { obs := fun _ => [], rewards := fun _ => 0, dones := fun _ => false,
    infos := fun _ _ => { ffPolicy0 := fun _ => [1], obsArr := fun _ => [] } }

/-- A concrete stand-in for `np.linalg.norm` on one-dimensional vectors. -/
def absSumNorm : Vec → ℚ := fun v => (v.map fun x => |x|).sum

/-- Witness for C2 at a concrete one-lane, one-slot state: live reward 2,
live ff `[3]`, shadow ff `[1]`, bonus `0.05 * |3 - 1|`. -/
theorem C2_witness :
    "ff" ∈ lbW2.transparentParams ∧
    [lbShadow2].length = lbW2.lbDicts.length ∧
    (LookbackRewardVecWrapper.step_wait lbW2 lbLive2 [lbShadow2] lbRoW
        absSumNorm).2.rewards 0 =
      lbLive2.rewards 0 + (0.05 : ℚ) *
        (([lbShadow2].take (if lbLive2.dones 0 then 0 else lbW2.epLens 0)).map
          fun r => absSumNorm (vsub ((lbLive2.infos 0 lbW2.victimIndex).ffPolicy0 0)
            ((r.infos 0 lbW2.victimIndex).ffPolicy0 0))).sum :=
  ⟨by decide, rfl,
    C2_reward_is_live_plus_scaled_ff_distance_sum lbW2 lbLive2 [lbShadow2]
      lbRoW absSumNorm 0 (by decide) rfl⟩

/-- Witness for C3 at a concrete one-lane, one-slot state. -/
theorem C3_witness :
    [lbShadow2].length = lbW0.lbDicts.length ∧
    ((LookbackRewardVecWrapper.step_wait (LookbackRewardVecWrapper.step_async
        lbW0 (fun _ => []) lbRoW) lbLive2 [lbShadow2] lbRoW absSumNorm).1.epLens 0 =
      if lbLive2.dones 0 then 0 else lbW0.epLens 0 + 1) ∧
    ((LookbackRewardVecWrapper.step_wait (LookbackRewardVecWrapper.step_async
        lbW0 (fun _ => []) lbRoW) lbLive2 [lbShadow2] lbRoW absSumNorm).2.rewards 0 =
      lbLive2.rewards 0 + (0.05 : ℚ) *
        (([lbShadow2].take (if lbLive2.dones 0 then 0 else lbW0.epLens 0 + 1)).map
          fun r => if "ff" ∈ lbW0.transparentParams then
            absSumNorm (vsub ((lbLive2.infos 0 lbW0.victimIndex).ffPolicy0 0)
              ((r.infos 0 lbW0.victimIndex).ffPolicy0 0))
          else 0).sum) :=
  ⟨rfl, (C3_episode_length_gating lbW0 (fun _ => []) lbRoW lbLive2 [lbShadow2]
      lbRoW absSumNorm 0 rfl).1,
    (C3_episode_length_gating lbW0 (fun _ => []) lbRoW lbLive2 [lbShadow2]
      lbRoW absSumNorm 0 rfl).2.1⟩

/-- A wrapper state whose transparent params are `['obs']` only. -/
def lbW10 : LookbackRewardVecWrapper 1 :=
  { lbW2 with transparentParams := ["obs"] }

/-- Witness for C10: with `transparent_params = ['obs']` the returned reward
equals the live reward. -/
theorem C10_witness :
    "obs" ∈ lbW10.transparentParams ∧
    "ff" ∉ lbW10.transparentParams ∧
    (LookbackRewardVecWrapper.step_wait lbW10 lbLive2 [lbShadow2] lbRoW
        absSumNorm).2.rewards 0 = lbLive2.rewards 0 :=
  ⟨by decide, by decide,
    C10_only_ff_contributes lbW10 lbLive2 [lbShadow2] lbRoW absSumNorm 0
      (by decide) (by decide)⟩

/-!
## Episode-end reset (claim C4)
-/

/-- C4 (amended): on a lane's episode end (`done` observed for that lane),
`step_wait` resets, for that lane, every shadow slot's simulator state,
curried-policy observation context, cached action, cached recurrent state and
cached reward, and the tracked our-policy recurrent state, all to values
derived from the live environment's fresh reset state (its post-reset
observations and state readouts), independent of their values before the
reset.  The cached per-lane info dict is NOT among the reset caches (see the
counterexample): the per-lane branch of `_reset_state_data` leaves
`data['info']` untouched. -/
theorem C4_episode_end_reset_amended {n : ℕ} (w : LookbackRewardVecWrapper n)
    (live : StepResult n) (lbRes : List (StepResult n)) (ro : LiveReadout n)
    (norm : Vec → ℚ) (i : Fin n) (hd : live.dones i = true)
    (hlen : lbRes.length = w.lbDicts.length) :
    ((LookbackRewardVecWrapper.step_wait w live lbRes ro norm).1.state.map
        fun f => f i) =
      (if w.policy.stateful then
        some (w.policy.nextState ((live.obs i).take w.policy.obDim)
          w.policy.initState)
      else none) ∧
    ∀ slot ∈ (LookbackRewardVecWrapper.step_wait w live lbRes ro norm).1.lbDicts,
      slot_reset_at w.policy live ro i slot := by
  constructor
  · rw [LookbackRewardVecWrapper.step_wait_state]
    cases hsf : w.policy.stateful with
    | true =>
      cases hws : w.state with
      | none =>
        simp [LPolicy.predict, hsf, LookbackRewardVecWrapper.get_truncated_obs]
      | some f =>
        simp [LPolicy.predict, hsf, hd,
          LookbackRewardVecWrapper.get_truncated_obs]
    | false => simp [LPolicy.predict, hsf]
  · unfold LookbackRewardVecWrapper.step_wait
    dsimp only
    refine LookbackRewardVecWrapper.foldl_lane_step_establishes w.policy live ro
      norm i hd (List.finRange n) (List.nodup_finRange n) (List.mem_finRange i)
      _ rfl ?_
    intro slot hmem
    exact LookbackRewardVecWrapper.process_lb_data_caches _ _ _ _ hlen slot hmem

/-- A live step result reporting the lane done (its `obs` are the post-reset
observations per the VecEnv auto-reset contract). -/
def lbLiveDone : StepResult 1 :=
  { lbLive2 with dones := fun _ => true }

/-- C4 counterexample: after the episode-end reset of lane 0, the slot's
cached per-lane info still holds the ending episode's shadow victim info
(`lbShadow2.infos 0 0`) verbatim — it is not cleared to the fresh
`defaultdict(dict)` state (`none`) the full-reset branch produces, so the
"cached per-lane info" part of the claim fails on the code. -/
theorem C4_info_not_reset_counterexample :
    lbLiveDone.dones 0 = true ∧
    ((LookbackRewardVecWrapper.step_wait lbW2 lbLiveDone [lbShadow2] lbRoW
        absSumNorm).1.lbDicts.map fun s => s.data.info 0 0) =
      [some (lbShadow2.infos 0 0)] ∧
    some (lbShadow2.infos 0 0) ≠ (none : Option (VictimInfo 1)) :=
  ⟨rfl, rfl, by simp⟩

/-- A stateful baseline policy over one lane, to exercise the recurrent-state
reset. -/
def lbPolicyS : LPolicy 1 :=
  { obDim := 1, stateful := true, initState := [5],
    act := fun o s => o ++ s, nextState := fun o s => o ++ s }

/-- A one-slot wrapper state with a stateful baseline policy. -/
def lbW4 : LookbackRewardVecWrapper 1 :=
  { lbW2 with policy := lbPolicyS }

/-- Witness for the amended C4 at a concrete one-lane, one-slot state with a
stateful policy and a done lane. -/
theorem C4_witness :
    lbLiveDone.dones 0 = true ∧
    [lbShadow2].length = lbW4.lbDicts.length ∧
    ((((LookbackRewardVecWrapper.step_wait lbW4 lbLiveDone [lbShadow2] lbRoW
        absSumNorm).1.state.map fun f => f 0) =
      (if lbW4.policy.stateful then
        some (lbW4.policy.nextState ((lbLiveDone.obs 0).take lbW4.policy.obDim)
          lbW4.policy.initState)
      else none)) ∧
    ∀ slot ∈ (LookbackRewardVecWrapper.step_wait lbW4 lbLiveDone [lbShadow2]
        lbRoW absSumNorm).1.lbDicts,
      slot_reset_at lbW4.policy lbLiveDone lbRoW 0 slot) :=
  ⟨rfl, rfl, C4_episode_end_reset_amended lbW4 lbLiveDone [lbShadow2] lbRoW
    absSumNorm 0 rfl rfl⟩

/-!
## Claims about construction, error handling and resource closing
-/

/-- C5: constructing the Lookback Reward Augmenter with
`transparent_params = None` fails at construction (the source raises
`ValueError`, the spec's configuration-error category) and no state is
built. -/
theorem C5_init_fails_without_transparent_params (n lookbackNum : ℕ)
    (victimIndex : Fin 2) (policy : LPolicy n) (fresh : ℕ → ShadowEnvInit n) :
    LookbackRewardVecWrapper.init n lookbackNum none victimIndex policy fresh =
      Except.error
        "LookbackRewardVecWrapper assumes transparent policies and venvs." :=
  rfl

/-- C6 (code bug): `_filter_dict` with any requested key set raises
`AttributeError` (Python sets have `intersection`, not `intersect`) instead of
the documented warn-and-continue behaviour, which would keep the present keys
and report the missing ones. -/
theorem C6_filter_dict_raises_instead_of_warning :
    _filter_dict [("present", (1 : ℚ))] (some ["present", "missing"]) =
      Except.error "AttributeError: 'set' object has no attribute 'intersect'" ∧
    filter_dict_documented [("present", (1 : ℚ))] (some ["present", "missing"]) =
      ([("present", (1 : ℚ))], ["missing"]) :=
  ⟨rfl, by decide⟩

/-- C9: closing the `EmbedVictimWrapper` closes the embedded victim policy's
TensorFlow session in addition to closing the wrapped environment pipeline. -/
theorem C9_close_closes_victim_session_and_pipeline (w : EmbedVictimWrapper) :
    w.close.victim.sess.closed = true ∧ w.close.venv.closed = true :=
  ⟨rfl, rfl⟩

/-- C8: the Trajectory Recorder is a transparent passthrough: `step_async`
forwards the caller's actions to the wrapped environment unchanged, `reset`
returns the wrapped environment's observations unchanged, and whenever
`step_wait` returns, it returns exactly the wrapped environment's
`(observations, rewards, dones, infos)`. -/
theorem C8_recorder_is_transparent_passthrough (A n : ℕ) :
    (∀ (st : TrajectoryRecorder A n) (actions : Fin A → Fin n → ℚ),
      (st.step_async actions).2 = actions) ∧
    (∀ (st : TrajectoryRecorder A n) (obs : Fin A → Fin n → ℚ),
      (st.reset obs).2 = obs) ∧
    (∀ (st st' : TrajectoryRecorder A n) (res out : MultiStepResult A n),
      st.step_wait res = .ok (st', out) → out = res) := by
  refine ⟨fun _ _ => rfl, fun _ _ => rfl, fun st st' res out h => ?_⟩
  unfold TrajectoryRecorder.step_wait at h
  cases hpo : st.prevObs with
  | none => rw [hpo] at h; cases h
  | some po =>
    cases hac : st.actions with
    | none => rw [hpo, hac] at h; cases h
    | some ac =>
      rw [hpo, hac] at h
      dsimp only at h
      cases hrec : TrajectoryRecorder.record_timestep_data st po ac
          res.rewards res.dones res.infos with
      | error e => rw [hrec] at h; cases h
      | ok st2 =>
        rw [hrec] at h
        simp only [Except.map, Except.ok.injEq, Prod.mk.injEq] at h
        exact h.2.symm

/-- A recorder state with no recorded agents and a cached observation/action,
used to instantiate the passthrough theorem. -/
def trajW : TrajectoryRecorder 1 1 :=
  { agentIndices := []
    envKeys := none
    infoKeys := none
    trajDicts := []
    fullTrajDicts := []
    prevObs := some fun _ _ => 3
    actions := some fun _ _ => 4 }

/-- A concrete wrapped-environment step result for the recorder witnesses. -/
def trajResW : MultiStepResult 1 1 :=
  { obs := fun _ _ => 7
    rewards := fun _ _ => 2
    dones := fun _ => false
    infos := fun _ _ => [] }

/-- Witness for C8 at a concrete recorder state and step result. -/
theorem C8_witness :
    trajW.step_wait trajResW =
      .ok ({ trajW with prevObs := some trajResW.obs }, trajResW) ∧
    trajResW = trajResW :=
  ⟨rfl, (C8_recorder_is_transparent_passthrough 1 1).2.2 trajW
    { trajW with prevObs := some trajResW.obs } trajResW trajResW rfl⟩

/-!
## Per-episode consolidation of the Trajectory Recorder (claim C7)
-/

theorem dictGet_dictAppend_same {α : Type} (d : List (String × List α))
    (k : String) (v : α) : dictGet (dictAppend d k v) k = dictGet d k ++ [v] := by
  induction d with
  | nil => simp [dictAppend, dictGet]
  | cons kv rest ih =>
    obtain ⟨k', vs⟩ := kv
    by_cases h : k' = k
    · subst h; simp [dictAppend, dictGet]
    · simp [dictAppend, dictGet, h, ih]

theorem dictGet_dictAppend_ne {α : Type} (d : List (String × List α))
    (k' k : String) (v : α) (h : k' ≠ k) :
    dictGet (dictAppend d k' v) k = dictGet d k := by
  induction d with
  | nil => simp [dictAppend, dictGet, h]
  | cons kv rest ih =>
    obtain ⟨k'', vs⟩ := kv
    by_cases h2 : k'' = k'
    · subst h2; simp [dictAppend, dictGet, h]
    · by_cases h3 : k'' = k
      · subst h3; simp [dictAppend, dictGet, h2]
      · simp [dictAppend, dictGet, h2, h3, ih]

/-- Appending entries whose keys differ from `k` does not change `d[k]`. -/
theorem dictGet_foldl_append_of_not_mem {α : Type} (c : List (String × α))
    (k : String) :
    ∀ (f0 : List (String × List α)), (∀ kv ∈ c, kv.1 ≠ k) →
      dictGet (c.foldl (fun f kv => dictAppend f kv.1 kv.2) f0) k =
        dictGet f0 k := by
  induction c with
  | nil => intro f0 _; rfl
  | cons kv c ih =>
    intro f0 hk
    rw [List.foldl_cons, ih _ (fun kv' h => hk kv' (List.mem_cons_of_mem kv h)),
      dictGet_dictAppend_ne _ _ _ _ (hk kv (List.mem_cons_self kv c))]

/-- Appending every entry of a key-distinct dict `c` onto `f0` appends `v` to
`f0[k]` for the entry `(k, v) ∈ c`. -/
theorem dictGet_foldl_append_of_mem {α : Type} (c : List (String × α))
    (k : String) (v : α) :
    ∀ (f0 : List (String × List α)), (k, v) ∈ c → (c.map Prod.fst).Nodup →
      dictGet (c.foldl (fun f kv => dictAppend f kv.1 kv.2) f0) k =
        dictGet f0 k ++ [v] := by
  induction c with
  | nil => intro _ hmem; cases hmem
  | cons kv c ih =>
    intro f0 hmem hnd
    obtain ⟨k1, v1⟩ := kv
    rw [List.map_cons, List.nodup_cons] at hnd
    rcases List.mem_cons.mp hmem with hh | hh
    · injection hh with hk1 hv1
      subst hk1
      subst hv1
      rw [List.foldl_cons,
        dictGet_foldl_append_of_not_mem c k _
          (fun kv' h hkeq =>
            hnd.1 (by rw [← hkeq]; exact List.mem_map.mpr ⟨kv', h, rfl⟩)),
        dictGet_dictAppend_same]
    · have hk1 : k1 ≠ k := by
        intro hkeq
        exact hnd.1 (by rw [hkeq]; exact List.mem_map.mpr ⟨(k, v), hh, rfl⟩)
      rw [List.foldl_cons, ih _ hh hnd.2, dictGet_dictAppend_ne _ _ _ _ hk1]

/-- `foldlM` over `Except` with a body that always succeeds is the pure
fold. -/
theorem foldlM_except_ok {ε β σ : Type} (f : β → σ → Except ε β) (g : β → σ → β)
    (hfg : ∀ b s, f b s = .ok (g b s)) :
    ∀ (l : List σ) (b : β), l.foldlM f b = .ok (l.foldl g b) := by
  intro l
  induction l with
  | nil => intro b; rfl
  | cons s l ih =>
    intro b
    rw [List.foldlM_cons, hfg]
    exact ih (g b s)

/-- `mapM` over `Except` with a body that succeeds on every element is the
pure map. -/
theorem mapM_except_ok {ε α β : Type} (f : α → Except ε β) (g : α → β) :
    ∀ (l : List α), (∀ x ∈ l, f x = .ok (g x)) → l.mapM f = .ok (l.map g) := by
  intro l
  induction l with
  | nil => intro _; rfl
  | cons x l ih =>
    intro h
    rw [List.mapM_cons, h x (List.mem_cons_self x l)]
    show (Except.ok (g x) >>= fun hd =>
      l.mapM f >>= fun tl => pure (hd :: tl)) = _
    show (l.mapM f >>= fun tl => pure (g x :: tl)) = _
    rw [ih (fun y hy => h y (List.mem_cons_of_mem x hy))]
    rfl

namespace TrajectoryRecorder

/-- The per-step appends of the `record_timestep_data` loop body for one
`(agent, lane)` cell: the requested env-field values, then the info-dict
entries (utils.py lines 264-271). -/
def cell_append {A n : ℕ} (envData : List (String × (Fin A → Fin n → ℚ)))
    (agentIdx : Fin A) (infoDict : List (String × ℚ)) (i : Fin n)
    (cell : List (String × List ℚ)) : List (String × List ℚ) :=
  infoDict.foldl (fun c kv => dictAppend c kv.1 kv.2)
    (envData.foldl (fun c kv => dictAppend c kv.1 (kv.2 agentIdx i)) cell)

/-- The episode-end consolidation of one cell into the per-agent store
(utils.py lines 273-280): record the summed rewards as an episode return, then
append each accumulated field as one episode array. -/
def consolidate (cell : List (String × List ℚ))
    (full : List (String × List (List ℚ))) : List (String × List (List ℚ)) :=
  cell.foldl (fun f kv => dictAppend f kv.1 kv.2)
    (dictAppend full "episode_returns" [(dictGet cell "rewards").sum])

theorem record_cell_not_done {A n : ℕ}
    (envData : List (String × (Fin A → Fin n → ℚ))) (agentIdx : Fin A)
    (infoDict : List (String × ℚ)) (i : Fin n)
    (cell : List (String × List ℚ)) (full : List (String × List (List ℚ))) :
    record_cell envData agentIdx infoDict false i cell full =
      (cell_append envData agentIdx infoDict i cell, full) := rfl

theorem record_cell_done {A n : ℕ}
    (envData : List (String × (Fin A → Fin n → ℚ))) (agentIdx : Fin A)
    (infoDict : List (String × ℚ)) (i : Fin n)
    (cell : List (String × List ℚ)) (full : List (String × List (List ℚ))) :
    record_cell envData agentIdx infoDict true i cell full =
      ([], consolidate (cell_append envData agentIdx infoDict i cell)
        full) := rfl

/-- The pure loop body of `record_timestep_data` for one recorded agent, once
the key filters are known to succeed. -/
def row_step {A n : ℕ} (envData : List (String × (Fin A → Fin n → ℚ)))
    (a : Fin A) (dones : Fin n → Bool)
    (infos : Fin n → Fin A → List (String × ℚ))
    (acc : (Fin n → List (String × List ℚ)) × List (String × List (List ℚ)))
    (i : Fin n) :
    (Fin n → List (String × List ℚ)) × List (String × List (List ℚ)) :=
  let r := record_cell envData a (infos i a) (dones i) i (acc.1 i) acc.2
  (Function.update acc.1 i r.1, r.2)

/-- `record_timestep_data` as a pure function, defined when both key filters
are `None`. -/
def record_pure {A n : ℕ} (st : TrajectoryRecorder A n)
    (prevObs actions rewards : Fin A → Fin n → ℚ) (dones : Fin n → Bool)
    (infos : Fin n → Fin A → List (String × ℚ)) : TrajectoryRecorder A n :=
  let rows := (st.agentIndices.zip (st.trajDicts.zip st.fullTrajDicts)).map
    (fun p => (List.finRange n).foldl
      (row_step (env_data prevObs actions rewards) p.1 dones infos) p.2)
  { st with trajDicts := rows.map (·.1), fullTrajDicts := rows.map (·.2) }

/-- Binding a succeeded `Except` computation applies the continuation. -/
theorem except_bind_ok {ε α β : Type} (a : α) (f : α → Except ε β) :
    (Except.ok a >>= f) = f a := rfl

set_option maxHeartbeats 1000000 in
/-- With `env_keys = None` and `info_keys = None` (record everything), the
recording step succeeds and equals the pure fold. -/
theorem record_timestep_data_eq_pure {A n : ℕ} (st : TrajectoryRecorder A n)
    (prevObs actions rewards : Fin A → Fin n → ℚ) (dones : Fin n → Bool)
    (infos : Fin n → Fin A → List (String × ℚ))
    (hek : st.envKeys = none) (hik : st.infoKeys = none) :
    record_timestep_data st prevObs actions rewards dones infos =
      .ok (record_pure st prevObs actions rewards dones infos) := by
  obtain ⟨ai, ek, ik, td, ftd, po, ac⟩ := st
  dsimp only at hek hik
  subst hek
  subst hik
  unfold record_timestep_data
  dsimp only
  rw [show _filter_dict (env_data prevObs actions rewards)
      (none : Option (List String)) =
      Except.ok (env_data prevObs actions rewards) from rfl]
  rw [except_bind_ok]
  rw [mapM_except_ok
    (fun p => (List.finRange n).foldlM
      (record_row_body (env_data prevObs actions rewards) p.1 dones infos none)
      p.2)
    (fun p => (List.finRange n).foldl
      (row_step (env_data prevObs actions rewards) p.1 dones infos) p.2)
    (ai.zip (td.zip ftd))
    (fun p _ => foldlM_except_ok
      (record_row_body (env_data prevObs actions rewards) p.1 dones infos none)
      (row_step (env_data prevObs actions rewards) p.1 dones infos)
      (fun _ _ => rfl) _ _)]
  rw [except_bind_ok]
  rfl

end TrajectoryRecorder

namespace TrajectoryRecorder

/-- Lanes that are not done only append to their own accumulator cell; the
consolidated store is untouched. -/
theorem row_foldl_not_done {A n : ℕ}
    (envData : List (String × (Fin A → Fin n → ℚ))) (a : Fin A)
    (dones : Fin n → Bool) (infos : Fin n → Fin A → List (String × ℚ)) :
    ∀ (l : List (Fin n)), l.Nodup → (∀ j ∈ l, dones j = false) →
      ∀ (acc : (Fin n → List (String × List ℚ)) ×
          List (String × List (List ℚ))),
        l.foldl (row_step envData a dones infos) acc =
          (fun k => if k ∈ l then cell_append envData a (infos k a) k (acc.1 k)
                    else acc.1 k,
           acc.2) := by
  intro l
  induction l with
  | nil =>
    intro _ _ acc
    refine Prod.ext (funext fun k => ?_) rfl
    simp
  | cons j l ih =>
    intro hnd hno acc
    have hjl : j ∉ l := (List.nodup_cons.mp hnd).1
    have hstep : row_step envData a dones infos acc j =
        (Function.update acc.1 j (cell_append envData a (infos j a) j (acc.1 j)),
         acc.2) := by
      unfold row_step
      rw [hno j (List.mem_cons_self j l), record_cell_not_done]
    rw [List.foldl_cons, hstep, ih (List.nodup_cons.mp hnd).2
      (fun k hk => hno k (List.mem_cons_of_mem j hk))]
    refine Prod.ext (funext fun k => ?_) rfl
    dsimp only
    by_cases hkj : k = j
    · subst hkj
      rw [if_neg hjl, Function.update_same, if_pos (List.mem_cons_self k l)]
    · rw [Function.update_noteq hkj]
      simp [List.mem_cons, hkj]

/-- When exactly lane `i` is done, the row fold empties lane `i`'s
accumulator, appends to every other processed lane's accumulator, and
consolidates lane `i`'s appended accumulator into the store. -/
theorem row_foldl_single_done {A n : ℕ}
    (envData : List (String × (Fin A → Fin n → ℚ))) (a : Fin A)
    (dones : Fin n → Bool) (infos : Fin n → Fin A → List (String × ℚ))
    (i : Fin n) (hdone : dones i = true)
    (honly : ∀ j, j ≠ i → dones j = false) :
    ∀ (l : List (Fin n)), l.Nodup → i ∈ l →
      ∀ (acc : (Fin n → List (String × List ℚ)) ×
          List (String × List (List ℚ))),
        l.foldl (row_step envData a dones infos) acc =
          (fun k => if k ∈ l then
              (if k = i then []
               else cell_append envData a (infos k a) k (acc.1 k))
            else acc.1 k,
           consolidate (cell_append envData a (infos i a) i (acc.1 i)) acc.2) := by
  intro l
  induction l with
  | nil => intro _ hmem; cases hmem
  | cons j l ih =>
    intro hnd hmem acc
    have hjl : j ∉ l := (List.nodup_cons.mp hnd).1
    rw [List.foldl_cons]
    by_cases hji : j = i
    · subst hji
      have hstep : row_step envData a dones infos acc j =
          (Function.update acc.1 j [],
           consolidate (cell_append envData a (infos j a) j (acc.1 j)) acc.2) := by
        unfold row_step
        rw [hdone, record_cell_done]
      rw [hstep, row_foldl_not_done envData a dones infos l
        (List.nodup_cons.mp hnd).2
        (fun k hk => honly k (fun hki => hjl (hki ▸ hk)))]
      refine Prod.ext (funext fun k => ?_) rfl
      dsimp only
      by_cases hkj : k = j
      · subst hkj
        rw [if_neg hjl, Function.update_same,
          if_pos (List.mem_cons_self k l), if_pos rfl]
      · rw [Function.update_noteq hkj]
        simp [List.mem_cons, hkj]
    · have hstep : row_step envData a dones infos acc j =
          (Function.update acc.1 j
            (cell_append envData a (infos j a) j (acc.1 j)), acc.2) := by
        unfold row_step
        rw [honly j hji, record_cell_not_done]
      have hmem' : i ∈ l := by
        rcases List.mem_cons.mp hmem with hh | hh
        · exact absurd hh.symm hji
        · exact hh
      rw [hstep, ih (List.nodup_cons.mp hnd).2 hmem']
      have hij : i ≠ j := fun hh => hji hh.symm
      refine Prod.ext (funext fun k => ?_) ?_
      · dsimp only
        by_cases hkj : k = j
        · subst hkj
          rw [if_neg hjl, Function.update_same,
            if_pos (List.mem_cons_self k l), if_neg hji]
        · rw [Function.update_noteq hkj]
          simp [List.mem_cons, hkj]
      · dsimp only
        rw [Function.update_noteq hij]

end TrajectoryRecorder

/-- C7: for every lane and recorded agent, when that lane's done flag is
observed, `record_timestep_data` consolidates the per-step values accumulated
for each field (including this step's appends) into one array per field
appended to the per-agent store, records as the episode return the sum of the
per-step rewards accumulated for that lane, and resets the lane's accumulator
to empty. -/
theorem C7_episode_consolidation_and_return {A n : ℕ}
    (st : TrajectoryRecorder A n)
    (prevObs actions rewards : Fin A → Fin n → ℚ) (dones : Fin n → Bool)
    (infos : Fin n → Fin A → List (String × ℚ)) (d : ℕ) (i : Fin n) (a : Fin A)
    (c2 : List (String × List ℚ))
    (hek : st.envKeys = none) (hik : st.infoKeys = none)
    (hlen1 : st.trajDicts.length = st.agentIndices.length)
    (hlen2 : st.fullTrajDicts.length = st.agentIndices.length)
    (hd : d < st.agentIndices.length)
    (ha : st.agentIndices.get ⟨d, hd⟩ = a)
    (hdone : dones i = true) (honly : ∀ j, j ≠ i → dones j = false)
    (hc2 : c2 = TrajectoryRecorder.cell_append
      (TrajectoryRecorder.env_data prevObs actions rewards) a (infos i a) i
      ((st.trajDicts.getD d fun _ => []) i))
    (hnoep : ∀ kv ∈ c2, kv.1 ≠ "episode_returns")
    (hnodup : (c2.map Prod.fst).Nodup) :
    TrajectoryRecorder.record_timestep_data st prevObs actions rewards dones
        infos =
      .ok (TrajectoryRecorder.record_pure st prevObs actions rewards dones
        infos) ∧
    ((TrajectoryRecorder.record_pure st prevObs actions rewards dones
        infos).trajDicts.getD d fun _ => []) i = [] ∧
    dictGet ((TrajectoryRecorder.record_pure st prevObs actions rewards dones
        infos).fullTrajDicts.getD d []) "episode_returns" =
      dictGet (st.fullTrajDicts.getD d []) "episode_returns" ++
        [[(dictGet c2 "rewards").sum]] ∧
    ∀ k v, (k, v) ∈ c2 →
      dictGet ((TrajectoryRecorder.record_pure st prevObs actions rewards dones
          infos).fullTrajDicts.getD d []) k =
        dictGet (st.fullTrajDicts.getD d []) k ++ [v] := by
  subst ha
  have hd2 : d < st.trajDicts.length := by omega
  have hd3 : d < st.fullTrajDicts.length := by omega
  have hzlen : d < (st.agentIndices.zip
      (st.trajDicts.zip st.fullTrajDicts)).length := by
    rw [List.length_zip, List.length_zip]
    omega
  have htd : st.trajDicts.getD d (fun _ => []) = st.trajDicts.get ⟨d, hd2⟩ := by
    simp [List.getD_eq_getElem?_getD, List.getElem?_eq_getElem hd2]
  have hftd : st.fullTrajDicts.getD d [] = st.fullTrajDicts.get ⟨d, hd3⟩ := by
    simp [List.getD_eq_getElem?_getD, List.getElem?_eq_getElem hd3]
  rw [htd] at hc2
  subst hc2
  rw [hftd]
  have hfold := TrajectoryRecorder.row_foldl_single_done
    (TrajectoryRecorder.env_data prevObs actions rewards)
    (st.agentIndices.get ⟨d, hd⟩) dones infos i hdone honly
    (List.finRange n) (List.nodup_finRange n) (List.mem_finRange i)
    (st.trajDicts.get ⟨d, hd2⟩, st.fullTrajDicts.get ⟨d, hd3⟩)
  have etd : (TrajectoryRecorder.record_pure st prevObs actions rewards dones
      infos).trajDicts.getD d (fun _ => []) =
      ((List.finRange n).foldl
        (TrajectoryRecorder.row_step
          (TrajectoryRecorder.env_data prevObs actions rewards)
          (st.agentIndices.get ⟨d, hd⟩) dones infos)
        (st.trajDicts.get ⟨d, hd2⟩, st.fullTrajDicts.get ⟨d, hd3⟩)).1 := by
    simp only [TrajectoryRecorder.record_pure]
    rw [List.getD_eq_getElem?_getD, List.getElem?_map, List.getElem?_map,
      List.getElem?_eq_getElem hzlen]
    simp [List.getElem_zip]
  have efd : (TrajectoryRecorder.record_pure st prevObs actions rewards dones
      infos).fullTrajDicts.getD d [] =
      ((List.finRange n).foldl
        (TrajectoryRecorder.row_step
          (TrajectoryRecorder.env_data prevObs actions rewards)
          (st.agentIndices.get ⟨d, hd⟩) dones infos)
        (st.trajDicts.get ⟨d, hd2⟩, st.fullTrajDicts.get ⟨d, hd3⟩)).2 := by
    simp only [TrajectoryRecorder.record_pure]
    rw [List.getD_eq_getElem?_getD, List.getElem?_map, List.getElem?_map,
      List.getElem?_eq_getElem hzlen]
    simp [List.getElem_zip]
  refine ⟨TrajectoryRecorder.record_timestep_data_eq_pure st prevObs actions
    rewards dones infos hek hik, ?_, ?_, ?_⟩
  · rw [etd, hfold]
    simp [List.mem_finRange]
  · rw [efd, hfold]
    show dictGet (TrajectoryRecorder.consolidate _ _) _ = _
    unfold TrajectoryRecorder.consolidate
    rw [dictGet_foldl_append_of_not_mem _ _ _ hnoep,
      dictGet_dictAppend_same]
  · intro k v hkv
    rw [efd, hfold]
    show dictGet (TrajectoryRecorder.consolidate _ _) _ = _
    unfold TrajectoryRecorder.consolidate
    rw [dictGet_foldl_append_of_mem _ _ _ _ hkv hnodup,
      dictGet_dictAppend_ne _ _ _ _ (Ne.symm (hnoep (k, v) hkv))]

/-- A recorder mid-episode: one agent, one lane, with two steps already
accumulated (rewards 1 and 2) and an empty consolidated store. -/
def stW7 : TrajectoryRecorder 1 1 :=
  { agentIndices := [0]
    envKeys := none
    infoKeys := none
    trajDicts := [fun _ => [("observations", [10, 20]), ("actions", [7, 8]),
      ("rewards", [1, 2])]]
    fullTrajDicts := [[]]
    prevObs := none
    actions := none }

/-- The lane-0 accumulator of `stW7` after the third step's appends
(observation 30, action 9, reward 3). -/
def c2W7 : List (String × List ℚ) :=
  [("observations", [10, 20, 30]), ("actions", [7, 8, 9]),
   ("rewards", [1, 2, 3])]

/-- Witness for C7: a 3-step episode with rewards `[1, 2, 3]` consolidates on
`done` into per-field arrays, records episode return `6`, and empties the
accumulator. -/
theorem C7_witness :
    (TrajectoryRecorder.record_timestep_data stW7 (fun _ _ => 30)
        (fun _ _ => 9) (fun _ _ => 3) (fun _ => true) (fun _ _ => []) =
      .ok (TrajectoryRecorder.record_pure stW7 (fun _ _ => 30) (fun _ _ => 9)
        (fun _ _ => 3) (fun _ => true) (fun _ _ => [])) ∧
    ((TrajectoryRecorder.record_pure stW7 (fun _ _ => 30) (fun _ _ => 9)
        (fun _ _ => 3) (fun _ => true) (fun _ _ => [])).trajDicts.getD 0
        fun _ => []) 0 = [] ∧
    dictGet ((TrajectoryRecorder.record_pure stW7 (fun _ _ => 30)
        (fun _ _ => 9) (fun _ _ => 3) (fun _ => true)
        (fun _ _ => [])).fullTrajDicts.getD 0 []) "episode_returns" =
      dictGet (stW7.fullTrajDicts.getD 0 []) "episode_returns" ++
        [[(dictGet c2W7 "rewards").sum]] ∧
    ∀ k v, (k, v) ∈ c2W7 →
      dictGet ((TrajectoryRecorder.record_pure stW7 (fun _ _ => 30)
          (fun _ _ => 9) (fun _ _ => 3) (fun _ => true)
          (fun _ _ => [])).fullTrajDicts.getD 0 []) k =
        dictGet (stW7.fullTrajDicts.getD 0 []) k ++ [v]) ∧
    (dictGet c2W7 "rewards").sum = 6 :=
  ⟨C7_episode_consolidation_and_return stW7 (fun _ _ => 30) (fun _ _ => 9)
    (fun _ _ => 3) (fun _ => true) (fun _ _ => []) 0 0 0 c2W7 rfl rfl rfl rfl
    (by decide) rfl rfl (by decide) rfl (by decide) (by decide),
   by rw [show dictGet c2W7 "rewards" = [1, 2, 3] from by decide]
      norm_num [List.sum_cons, List.sum_nil]⟩
